import Mathlib

/-!
Verification of the esphome_python_bluetooth_proxy daemon.

Shallow embedding of the core of `src/esphome_bluetooth_proxy`:
byte strings are `List Nat` (each element a byte value), Python `int`
protocol values are `Nat`, fallible operations return `Option`.
Each definition is translated from the named Python source function.
-/

set_option maxHeartbeats 1000000
set_option maxRecDepth 100000

/-! ## Section 1: varint / string codec (protocol.py) -/

/-- `protocol.encode_varint`: base-128 little-endian varint with
continuation bit, translating the Python while-loop into recursion on
`value >>> 7`. -/
def encode_varint (value : Nat) : List Nat :=
  if value < 0x80 then [value &&& 0x7F]
  else ((value &&& 0x7F) ||| 0x80) :: encode_varint (value >>> 7)
termination_by value
decreasing_by
  simp only [Nat.shiftRight_eq_div_pow]
  exact Nat.div_lt_self (by omega) (by norm_num)

/-- Loop body of `protocol.decode_varint`: `shift`/`result` accumulate as in
the Python loop, `count` tracks consumed bytes; the input list is the
byte suffix starting at the Python `offset`.  `none` models the raised
`ProtocolError` ("VarInt too long" once `shift` reaches 64 after a
continuation byte, "Incomplete VarInt" when the data runs out). -/
def decode_varint_aux (shift result count : Nat) : List Nat → Option (Nat × Nat)
  | [] => none
  | byte :: rest =>
    let result' := result ||| ((byte &&& 0x7F) <<< shift)
    if byte &&& 0x80 = 0 then some (result', count + 1)
    else if 64 ≤ shift + 7 then none
    else decode_varint_aux (shift + 7) result' (count + 1) rest

/-- `protocol.decode_varint` on the suffix of the buffer starting at
`offset`; returns `(decoded_value, bytes_consumed)`. -/
def decode_varint (data : List Nat) : Option (Nat × Nat) :=
  decode_varint_aux 0 0 0 data

/-- `protocol.encode_string`: length-prefixed byte string (strings are
modelled by their UTF-8 byte lists). -/
def encode_string (value : List Nat) : List Nat :=
  encode_varint value.length ++ value

/-- `protocol.decode_string` on the suffix of the buffer starting at
`offset`; `none` models the raised `ProtocolError` when the prefixed
length extends past the data. -/
def decode_string (data : List Nat) : Option (List Nat × Nat) :=
  match decode_varint data with
  | none => none
  | some (len, vs) =>
    if data.length < vs + len then none
    else some ((data.drop vs).take len, vs + len)

/-- `protocol.encode_bool`. -/
def encode_bool (value : Bool) : List Nat :=
  if value then [1] else [0]

/-- `protocol.create_message_frame`:
`[0x00][VarInt payload size][VarInt message type][payload]`. -/
def create_message_frame (msg_type : Nat) (payload : List Nat) : List Nat :=
  0x00 :: (encode_varint payload.length ++ (encode_varint msg_type ++ payload))

/-- `protocol.parse_message_frame`; returns
`(message_type, payload, total_frame_size)`, `none` for any raised
`ProtocolError`. -/
def parse_message_frame (data : List Nat) : Option (Nat × List Nat × Nat) :=
  match data with
  | [] => none
  | b :: rest =>
    if b ≠ 0 then none
    else
      match decode_varint rest with
      | none => none
      | some (payload_size, size_bytes) =>
        match decode_varint (rest.drop size_bytes) with
        | none => none
        | some (msg_type, type_bytes) =>
          if data.length < (1 + size_bytes + type_bytes) + payload_size then none
          else some (msg_type, (data.drop (1 + size_bytes + type_bytes)).take payload_size,
              (1 + size_bytes + type_bytes) + payload_size)

/-! ### Varint codec lemmas -/

theorem lor_shiftLeft_eq_add {a : Nat} (s b : Nat) (h : a < 2 ^ s) :
    a ||| b <<< s = a + b * 2 ^ s := by
  rw [Nat.shiftLeft_eq, Nat.lor_comm, Nat.mul_comm b, ← Nat.mul_add_lt_is_or h b]
  omega

theorem encode_varint_length_pos (n : Nat) : 0 < (encode_varint n).length := by
  unfold encode_varint
  split <;> simp

theorem encode_varint_length_le :
    ∀ k n : Nat, 0 < k → n < 2 ^ (7 * k) → (encode_varint n).length ≤ k := by
  intro k
  induction k with
  | zero => omega
  | succ k ih =>
    intro n _ hn
    unfold encode_varint
    split
    · simp
    · rename_i hge
      simp only [List.length_cons]
      have hk : 0 < k := by
        by_contra h0
        have : k = 0 := by omega
        subst this
        simp at hn
        omega
      have : n >>> 7 < 2 ^ (7 * k) := by
        rw [Nat.shiftRight_eq_div_pow]
        have : n < 2 ^ 7 * 2 ^ (7 * k) := by
          rw [← pow_add]
          have : 7 + 7 * k = 7 * (k + 1) := by ring
          rw [this]
          exact hn
        omega
      have := ih (n >>> 7) hk this
      omega

theorem varint_glue (n shift : Nat) :
    (n % 128) <<< shift ||| (n >>> 7) <<< (shift + 7) = n <<< shift := by
  have hp : 0 < (2:Nat) ^ shift := Nat.pos_pow_of_pos shift (by omega)
  have h1 : (n % 128) <<< shift < 2 ^ (shift + 7) := by
    rw [Nat.shiftLeft_eq]
    calc n % 128 * 2 ^ shift < 128 * 2 ^ shift :=
          (Nat.mul_lt_mul_right hp).mpr (by omega)
      _ = 2 ^ (shift + 7) := by rw [pow_add]; ring_nf
  rw [lor_shiftLeft_eq_add (shift + 7) (n >>> 7) h1,
    Nat.shiftLeft_eq, Nat.shiftLeft_eq, Nat.shiftRight_eq_div_pow]
  have hsplit : n = 128 * (n / 128) + n % 128 := (Nat.div_add_mod n 128).symm
  have e1 : (2:Nat) ^ 7 = 128 := by norm_num
  rw [pow_add, e1]
  calc n % 128 * 2 ^ shift + n / 128 * (2 ^ shift * 128)
      = (128 * (n / 128) + n % 128) * 2 ^ shift := by ring
    _ = n * 2 ^ shift := by rw [← hsplit]

theorem decode_varint_aux_encode (n : Nat) :
    ∀ (shift result count : Nat) (rest : List Nat),
    shift + 7 * (encode_varint n).length ≤ 70 →
    decode_varint_aux shift result count (encode_varint n ++ rest) =
      some (result ||| n <<< shift, count + (encode_varint n).length) := by
  induction n using Nat.strong_induction_on with
  | _ n ih =>
    intro shift result count rest hbound
    by_cases hlt : n < 0x80
    · have henc : encode_varint n = [n &&& 0x7F] := by
        unfold encode_varint
        simp [hlt]
      have hsmall : ∀ x : Nat, x < 128 → x &&& 0x7F = x ∧ x &&& 0x80 = 0 := by decide
      rw [henc]
      simp only [List.cons_append, List.nil_append, decode_varint_aux,
        (hsmall n hlt).1, (hsmall n hlt).2]
      simp [henc]
    · have henc : encode_varint n = ((n &&& 0x7F) ||| 0x80) :: encode_varint (n >>> 7) := by
        conv_lhs => unfold encode_varint
        simp [hlt]
      have hmod : n &&& 0x7F = n % 128 := by
        have : (0x7F : Nat) = 2 ^ 7 - 1 := by norm_num
        rw [this, Nat.and_pow_two_sub_one_eq_mod]
      have hkey : ∀ x : Nat, x < 128 → x ||| 128 = x + 128 := by decide
      have hb : (n &&& 0x7F) ||| 0x80 = n % 128 + 128 := by
        rw [hmod]
        exact hkey (n % 128) (by omega)
      have hbyte : ∀ x : Nat, x < 128 →
          (x + 128) &&& 0x7F = x ∧ ¬((x + 128) &&& 0x80 = 0) := by decide
      have hlen1 : 0 < (encode_varint (n >>> 7)).length := encode_varint_length_pos _
      have hlen : (encode_varint n).length = (encode_varint (n >>> 7)).length + 1 := by
        rw [henc]; simp
    -- the shift-limit guard does not fire
      have hguard : ¬ (64 ≤ shift + 7) := by omega
      rw [henc]
      simp only [List.cons_append, decode_varint_aux, hb,
        (hbyte (n % 128) (by omega)).1]
      rw [if_neg (by exact (hbyte (n % 128) (by omega)).2), if_neg hguard]
      have hrec := ih (n >>> 7)
        (by
          rw [Nat.shiftRight_eq_div_pow]
          exact Nat.div_lt_self (by omega) (by norm_num))
        (shift + 7) (result ||| (n % 128) <<< shift) (count + 1) rest (by omega)
      rw [List.append_eq, hrec]
      simp only [Option.some.injEq, Prod.mk.injEq, List.length_cons]
      constructor
      · rw [Nat.lor_assoc, varint_glue]
      · omega

theorem decode_varint_encode (n : Nat) (rest : List Nat) (h : n < 2 ^ 70) :
    decode_varint (encode_varint n ++ rest) = some (n, (encode_varint n).length) := by
  unfold decode_varint
  rw [decode_varint_aux_encode n 0 0 0 rest
    (by
      have := encode_varint_length_le 10 n (by omega) (by norm_num at h ⊢; omega)
      omega)]
  simp

theorem decode_string_encode (s rest : List Nat) (h : s.length < 2 ^ 70) :
    decode_string (encode_string s ++ rest) =
      some (s, (encode_varint s.length).length + s.length) := by
  unfold decode_string encode_string
  rw [List.append_assoc]
  simp only [decode_varint_encode s.length (s ++ rest) h]
  rw [if_neg (by simp)]
  rw [List.drop_left, List.take_left]

/-! ### Generic protobuf-style field loop (MessageDecoder pattern)

Every `MessageDecoder.decode_*` method of `protocol.py` is the same
while-loop: read a varint field key, dispatch on `(field_num, wire_type)`
to a field setter, otherwise skip the field by wire type.  We embed that
loop once, parameterised by the per-message `(field_num, wire_type) →
action` table; each concrete decoder instantiates the table exactly as
its Python `if/elif` chain does. -/

theorem decode_varint_aux_consumed :
    ∀ (data : List Nat) (shift result count v k : Nat),
    decode_varint_aux shift result count data = some (v, k) → count < k := by
  intro data
  induction data with
  | nil => intro shift result count v k h; simp [decode_varint_aux] at h
  | cons byte rest ih =>
    intro shift result count v k h
    simp only [decode_varint_aux] at h
    split at h
    · simp at h
      omega
    · split at h
      · simp at h
      · have := ih (shift + 7) _ (count + 1) v k h
        omega

theorem decode_varint_consumed_pos {data : List Nat} {v k : Nat}
    (h : decode_varint data = some (v, k)) : 0 < k :=
  decode_varint_aux_consumed data 0 0 0 v k h

/-- An entry of a decoder's dispatch table: how the Python `if/elif`
chain treats a given `(field_num, wire_type)` pair. -/
inductive FieldSpec (α : Type) where
  | setVarint (f : Nat → α → α)
  | setString (f : List Nat → α → α)
  | setBytes (f : List Nat → α → α)
  | skip

/-- The shared `while offset < len(data)` field loop of every
`MessageDecoder.decode_*` method: read the field key, apply the table's
setter, or skip an unknown field by wire type (`none` models the raised
`ProtocolError` for an unknown wire type or a decode failure).
`setString` checks the length bound as `decode_string` does; `setBytes`
slices without a bound check, as the Python `data[offset:offset+length]`
slice does. -/
def decode_fields {α : Type} (upd : Nat → Nat → FieldSpec α) (msg : α) :
    List Nat → Option α
  | [] => some msg
  | byte0 :: tail =>
    match h : decode_varint (byte0 :: tail) with
    | none => none
    | some (key, ks) =>
      match upd (key >>> 3) (key &&& 7) with
      | .setVarint f =>
        match decode_varint ((byte0 :: tail).drop ks) with
        | none => none
        | some (v, c) => decode_fields upd (f v msg) (((byte0 :: tail).drop ks).drop c)
      | .setString f =>
        match decode_string ((byte0 :: tail).drop ks) with
        | none => none
        | some (s, c) => decode_fields upd (f s msg) (((byte0 :: tail).drop ks).drop c)
      | .setBytes f =>
        match decode_varint ((byte0 :: tail).drop ks) with
        | none => none
        | some (len, c) =>
          decode_fields upd (f ((((byte0 :: tail).drop ks).drop c).take len) msg)
            ((((byte0 :: tail).drop ks).drop c).drop len)
      | .skip =>
        if key &&& 7 = 0 then
          match decode_varint ((byte0 :: tail).drop ks) with
          | none => none
          | some (_, c) => decode_fields upd msg (((byte0 :: tail).drop ks).drop c)
        else if key &&& 7 = 2 then
          match decode_varint ((byte0 :: tail).drop ks) with
          | none => none
          | some (len, c) => decode_fields upd msg ((((byte0 :: tail).drop ks).drop c).drop len)
        else none
termination_by data => data.length
decreasing_by
  all_goals
    have hks := decode_varint_consumed_pos h
    simp [List.length_drop]
    omega

theorem decode_varint_single {b : Nat} (hb : b < 128) (rest : List Nat) :
    decode_varint (b :: rest) = some (b, 1) := by
  have hsmall : ∀ x : Nat, x < 128 → x &&& 0x7F = x ∧ x &&& 0x80 = 0 := by decide
  unfold decode_varint decode_varint_aux
  simp [(hsmall b hb).1, (hsmall b hb).2]

theorem decode_fields_varint_chunk {α : Type} (upd : Nat → Nat → FieldSpec α)
    (b v : Nat) (msg : α) {f : Nat → α → α} (rest : List Nat)
    (hb : b < 128) (hupd : upd (b >>> 3) (b &&& 7) = .setVarint f) (hv : v < 2 ^ 70) :
    decode_fields upd msg (b :: (encode_varint v ++ rest)) =
      decode_fields upd (f v msg) rest := by
  conv_lhs => unfold decode_fields
  split
  · rename_i heq
    rw [decode_varint_single hb] at heq
    simp at heq
  · rename_i key ks heq
    rw [decode_varint_single hb] at heq
    obtain ⟨rfl, rfl⟩ : key = b ∧ ks = 1 := by
      simpa [eq_comm] using heq
    simp only [hupd, List.drop_succ_cons, List.drop_zero,
      decode_varint_encode v rest hv]
    rw [List.drop_left]

theorem decode_fields_string_chunk {α : Type} (upd : Nat → Nat → FieldSpec α)
    (b : Nat) (s : List Nat) (msg : α) {f : List Nat → α → α} (rest : List Nat)
    (hb : b < 128) (hupd : upd (b >>> 3) (b &&& 7) = .setString f)
    (hs : s.length < 2 ^ 70) :
    decode_fields upd msg (b :: (encode_string s ++ rest)) =
      decode_fields upd (f s msg) rest := by
  conv_lhs => unfold decode_fields
  split
  · rename_i heq
    rw [decode_varint_single hb] at heq
    simp at heq
  · rename_i key ks heq
    rw [decode_varint_single hb] at heq
    obtain ⟨rfl, rfl⟩ : key = b ∧ ks = 1 := by
      simpa [eq_comm] using heq
    simp only [hupd, List.drop_succ_cons, List.drop_zero,
      decode_string_encode s rest hs]
    rw [List.drop_left' (by simp [encode_string])]

theorem decode_fields_nil {α : Type} (upd : Nat → Nat → FieldSpec α) (msg : α) :
    decode_fields upd msg [] = some msg := by
  unfold decode_fields
  rfl

/-! ## Section 2: HelloRequest codec (protocol.py) -/

/-- `protocol.HelloRequest` (defaults `"", 1, 10`); the string is its
UTF-8 byte list. -/
structure HelloRequest where
  client_info : List Nat
  api_version_major : Nat
  api_version_minor : Nat
deriving DecidableEq

/-- `MessageEncoder.encode_hello_request`: each field is emitted only
when it differs from its default, with the literal key bytes of the
source (`\x0a`, `\x10`, `\x18`). -/
def encode_hello_request (msg : HelloRequest) : List Nat :=
  (if msg.client_info ≠ [] then 0x0a :: encode_string msg.client_info else []) ++
  ((if msg.api_version_major ≠ 1 then 0x10 :: encode_varint msg.api_version_major else []) ++
    (if msg.api_version_minor ≠ 10 then 0x18 :: encode_varint msg.api_version_minor else []))

/-- Dispatch table of `MessageDecoder.decode_hello_request`, mirroring its
`if/elif` chain on `(field_num, wire_type)`. -/
def hello_request_table : Nat → Nat → FieldSpec HelloRequest := fun fieldNum wire =>
  if fieldNum == 1 && wire == 2 then
    .setString (fun s m => { m with client_info := s })
  else if fieldNum == 2 && wire == 0 then
    .setVarint (fun v m => { m with api_version_major := v })
  else if fieldNum == 3 && wire == 0 then
    .setVarint (fun v m => { m with api_version_minor := v })
  else .skip

/-- `MessageDecoder.decode_hello_request`: the field loop starting from a
default-initialised `HelloRequest()`. -/
def decode_hello_request (data : List Nat) : Option HelloRequest :=
  decode_fields hello_request_table ⟨[], 1, 10⟩ data

theorem hello_chunk1 (ci rest : List Nat) (msg : HelloRequest)
    (h : ci.length < 2 ^ 70) :
    decode_fields hello_request_table msg (0x0a :: (encode_string ci ++ rest)) =
      decode_fields hello_request_table { msg with client_info := ci } rest :=
  decode_fields_string_chunk hello_request_table 0x0a ci msg rest (by norm_num) rfl h

theorem hello_chunk2 (v : Nat) (rest : List Nat) (msg : HelloRequest)
    (h : v < 2 ^ 70) :
    decode_fields hello_request_table msg (0x10 :: (encode_varint v ++ rest)) =
      decode_fields hello_request_table { msg with api_version_major := v } rest :=
  decode_fields_varint_chunk hello_request_table 0x10 v msg rest (by norm_num) rfl h

theorem hello_chunk3 (v : Nat) (rest : List Nat) (msg : HelloRequest)
    (h : v < 2 ^ 70) :
    decode_fields hello_request_table msg (0x18 :: (encode_varint v ++ rest)) =
      decode_fields hello_request_table { msg with api_version_minor := v } rest :=
  decode_fields_varint_chunk hello_request_table 0x18 v msg rest (by norm_num) rfl h

theorem hello_last1 (ci : List Nat) (msg : HelloRequest) (h : ci.length < 2 ^ 70) :
    decode_fields hello_request_table msg (0x0a :: encode_string ci) =
      some { msg with client_info := ci } := by
  rw [← List.append_nil (encode_string ci), hello_chunk1 ci [] msg h,
    decode_fields_nil]

theorem hello_last2 (v : Nat) (msg : HelloRequest) (h : v < 2 ^ 70) :
    decode_fields hello_request_table msg (0x10 :: encode_varint v) =
      some { msg with api_version_major := v } := by
  rw [← List.append_nil (encode_varint v), hello_chunk2 v [] msg h,
    decode_fields_nil]

theorem hello_last3 (v : Nat) (msg : HelloRequest) (h : v < 2 ^ 70) :
    decode_fields hello_request_table msg (0x18 :: encode_varint v) =
      some { msg with api_version_minor := v } := by
  rw [← List.append_nil (encode_varint v), hello_chunk3 v [] msg h,
    decode_fields_nil]

theorem decode_encode_hello_request (m : HelloRequest)
    (h1 : m.client_info.length < 2 ^ 70) (h2 : m.api_version_major < 2 ^ 70)
    (h3 : m.api_version_minor < 2 ^ 70) :
    decode_hello_request (encode_hello_request m) = some m := by
  obtain ⟨ci, maj, mino⟩ := m
  simp only at h1 h2 h3
  unfold decode_hello_request encode_hello_request
  simp only
  by_cases hci : ci = []
  · subst hci
    rw [if_neg (by simp)]
    by_cases hmaj : maj = 1
    · subst hmaj
      rw [if_neg (by simp)]
      by_cases hmin : mino = 10
      · subst hmin
        rw [if_neg (by simp)]
        exact decode_fields_nil _ _
      · rw [if_pos hmin]
        simp only [List.nil_append]
        exact hello_last3 mino _ h3
    · rw [if_pos hmaj]
      by_cases hmin : mino = 10
      · subst hmin
        rw [if_neg (by simp)]
        simp only [List.nil_append, List.append_nil]
        exact hello_last2 maj _ h2
      · rw [if_pos hmin]
        simp only [List.nil_append, List.cons_append, List.append_assoc]
        rw [hello_chunk2 maj _ _ h2]
        exact hello_last3 mino _ h3
  · rw [if_pos hci]
    by_cases hmaj : maj = 1
    · subst hmaj
      rw [if_neg (by simp)]
      by_cases hmin : mino = 10
      · subst hmin
        rw [if_neg (by simp)]
        simp only [List.nil_append, List.append_nil]
        exact hello_last1 ci _ h1
      · rw [if_pos hmin]
        simp only [List.nil_append, List.cons_append, List.append_assoc]
        rw [hello_chunk1 ci _ _ h1]
        exact hello_last3 mino _ h3
    · rw [if_pos hmaj]
      by_cases hmin : mino = 10
      · subst hmin
        rw [if_neg (by simp)]
        simp only [List.append_nil, List.cons_append, List.append_assoc]
        rw [hello_chunk1 ci _ _ h1]
        exact hello_last2 maj _ h2
      · rw [if_pos hmin]
        simp only [List.cons_append, List.append_assoc]
        rw [hello_chunk1 ci _ _ h1, hello_chunk2 maj _ _ h2]
        exact hello_last3 mino _ h3

theorem parse_create_frame (msg_type : Nat) (payload : List Nat)
    (ht : msg_type < 2 ^ 70) (hp : payload.length < 2 ^ 70) :
    parse_message_frame (create_message_frame msg_type payload) =
      some (msg_type, payload, (create_message_frame msg_type payload).length) := by
  unfold create_message_frame parse_message_frame
  simp only [ne_eq, not_true_eq_false, reduceIte,
    decode_varint_encode payload.length (encode_varint msg_type ++ payload) hp,
    List.drop_left, decode_varint_encode msg_type payload ht]
  rw [if_neg (by simp; omega)]
  simp only [Option.some.injEq, Prod.mk.injEq]
  refine ⟨trivial, ?_, by simp; omega⟩
  have hsplit : (0 : Nat) :: (encode_varint payload.length ++ (encode_varint msg_type ++ payload)) =
      ((0 :: encode_varint payload.length) ++ encode_varint msg_type) ++ payload := by
    simp
  rw [hsplit, List.drop_left' (by simp; omega), List.take_length]

/-- C1: Frame and message codec round-trip: for every message type `T` and
payload byte string `p`, `parse_message_frame (create_message_frame T p)`
returns exactly `(T, p, n)` with `n` the length of the produced frame, and
decoding the bytes produced by `encode_hello_request m` yields a record
equal to `m` (stated for all values whose varints stay within the
10-byte limit the decoder accepts, i.e. below `2 ^ 70`). -/
theorem c1_codec_roundtrip (msg_type : Nat) (payload : List Nat) (m : HelloRequest)
    (ht : msg_type < 2 ^ 70) (hp : payload.length < 2 ^ 70)
    (h1 : m.client_info.length < 2 ^ 70) (h2 : m.api_version_major < 2 ^ 70)
    (h3 : m.api_version_minor < 2 ^ 70) :
    parse_message_frame (create_message_frame msg_type payload) =
      some (msg_type, payload, (create_message_frame msg_type payload).length) ∧
    decode_hello_request (encode_hello_request m) = some m :=
  ⟨parse_create_frame msg_type payload ht hp,
    decode_encode_hello_request m h1 h2 h3⟩

/-- Witness for C1 at message type 1, payload `[5, 6]`, and the
HelloRequest `("foo", 1, 10)` (UTF-8 bytes `[102, 111, 111]`). -/
theorem c1_codec_roundtrip_witness :
    parse_message_frame (create_message_frame 1 [5, 6]) =
      some (1, [5, 6], (create_message_frame 1 [5, 6]).length) ∧
    decode_hello_request (encode_hello_request ⟨[102, 111, 111], 1, 10⟩) =
      some ⟨[102, 111, 111], 1, 10⟩ :=
  c1_codec_roundtrip 1 [5, 6] ⟨[102, 111, 111], 1, 10⟩ (by decide) (by decide)
    (by decide) (by decide) (by decide)

/-! ## Section 3: feature flags (device_info.py) -/

/-- `BluetoothProxyFeature` bit values. -/
def FEATURE_PASSIVE_SCAN : Nat := 1 <<< 0
def FEATURE_ACTIVE_CONNECTIONS : Nat := 1 <<< 1
def FEATURE_REMOTE_CACHING : Nat := 1 <<< 2
def FEATURE_PAIRING : Nat := 1 <<< 3
def FEATURE_CACHE_CLEARING : Nat := 1 <<< 4
def FEATURE_RAW_ADVERTISEMENTS : Nat := 1 <<< 5
def FEATURE_STATE_AND_MODE : Nat := 1 <<< 6

/-- `DeviceInfoProvider.get_feature_flags`, parameterised by the
provider's `active_connections` attribute. -/
def get_feature_flags (active_connections : Bool) : Nat :=
  let flags := 0
  let flags := flags ||| FEATURE_PASSIVE_SCAN
  let flags := flags ||| FEATURE_RAW_ADVERTISEMENTS
  let flags := flags ||| FEATURE_STATE_AND_MODE
  if active_connections then
    flags ||| FEATURE_ACTIVE_CONNECTIONS ||| FEATURE_REMOTE_CACHING |||
      FEATURE_PAIRING ||| FEATURE_CACHE_CLEARING
  else flags

/-- C6: `get_feature_flags` always sets PASSIVE_SCAN (1),
RAW_ADVERTISEMENTS (32) and STATE_AND_MODE (64), sets
ACTIVE_CONNECTIONS (2), REMOTE_CACHING (4), PAIRING (8) and
CACHE_CLEARING (16) iff active connections are enabled, and therefore
returns exactly 97 when disabled and 127 when enabled. -/
theorem c6_feature_flags (active : Bool) :
    get_feature_flags active &&& FEATURE_PASSIVE_SCAN = FEATURE_PASSIVE_SCAN ∧
    get_feature_flags active &&& FEATURE_RAW_ADVERTISEMENTS = FEATURE_RAW_ADVERTISEMENTS ∧
    get_feature_flags active &&& FEATURE_STATE_AND_MODE = FEATURE_STATE_AND_MODE ∧
    (get_feature_flags active &&& FEATURE_ACTIVE_CONNECTIONS = FEATURE_ACTIVE_CONNECTIONS
      ↔ active = true) ∧
    (get_feature_flags active &&& FEATURE_REMOTE_CACHING = FEATURE_REMOTE_CACHING
      ↔ active = true) ∧
    (get_feature_flags active &&& FEATURE_PAIRING = FEATURE_PAIRING ↔ active = true) ∧
    (get_feature_flags active &&& FEATURE_CACHE_CLEARING = FEATURE_CACHE_CLEARING
      ↔ active = true) ∧
    get_feature_flags active = if active then 127 else 97 := by
  cases active <;> decide

/-! ## Section 4: advertisement batcher (advertisement_batcher.py)

Advertisements are opaque ids (`Nat`); times are in milliseconds.  The
`asyncio.create_task(self.flush_batch())` scheduled by
`add_advertisement` / `_on_flush_timeout` is modelled as running the
flush immediately (the class requires append and flush to be serialised);
the flush timer itself only determines when a `timeout` event occurs, so
it is represented by the event and not by batcher state. -/

def FLUSH_BATCH_SIZE : Nat := 16

def FLUSH_TIMEOUT_MS : Nat := 100

/-- Mutable state of `AdvertisementBatcher` (the advertisement pool is
not modelled: it never reaches the send callback). -/
structure BatcherState where
  advertisement_batch : List Nat
  last_flush_time : Nat
deriving DecidableEq

/-- `AdvertisementBatcher.__init__` state. -/
def batcher_init : BatcherState :=
  { advertisement_batch := [], last_flush_time := 0 }

/-- `AdvertisementBatcher._should_flush` at current time `now`. -/
def should_flush (st : BatcherState) (now : Nat) : Bool :=
  if FLUSH_BATCH_SIZE ≤ st.advertisement_batch.length then true
  else if FLUSH_TIMEOUT_MS ≤ now - st.last_flush_time then true
  else false

/-- `AdvertisementBatcher.flush_batch`: detach and emit the batch unless
it is empty; the emitted batches are returned alongside the new state. -/
def flush_batch (st : BatcherState) (now : Nat) : BatcherState × List (List Nat) :=
  if st.advertisement_batch = [] then (st, [])
  else ({ advertisement_batch := [], last_flush_time := now }, [st.advertisement_batch])

/-- `AdvertisementBatcher.add_advertisement`: append, then flush if
`_should_flush` says so. -/
def add_advertisement (st : BatcherState) (adv now : Nat) :
    BatcherState × List (List Nat) :=
  let st' := { st with advertisement_batch := st.advertisement_batch ++ [adv] }
  if should_flush st' now then flush_batch st' now else (st', [])

/-- `AdvertisementBatcher._on_flush_timeout`: flush if non-empty. -/
def on_flush_timeout (st : BatcherState) (now : Nat) : BatcherState × List (List Nat) :=
  if st.advertisement_batch ≠ [] then flush_batch st now else (st, [])

/-- `AdvertisementBatcher.force_flush`. -/
def force_flush (st : BatcherState) (now : Nat) : BatcherState × List (List Nat) :=
  if st.advertisement_batch ≠ [] then flush_batch st now else (st, [])

/-- `AdvertisementBatcher.clear_batch`: discard without emitting. -/
def clear_batch (st : BatcherState) : BatcherState × List (List Nat) :=
  ({ st with advertisement_batch := [] }, [])

inductive BatcherEvent where
  | add (adv now : Nat)
  | timeout (now : Nat)
  | force (now : Nat)
  | clear
deriving DecidableEq

def batcher_step (st : BatcherState) : BatcherEvent → BatcherState × List (List Nat)
  | .add adv now => add_advertisement st adv now
  | .timeout now => on_flush_timeout st now
  | .force now => force_flush st now
  | .clear => clear_batch st

def batcher_run (st : BatcherState) : List BatcherEvent → BatcherState × List (List Nat)
  | [] => (st, [])
  | e :: es =>
    let r := batcher_step st e
    let r' := batcher_run r.1 es
    (r'.1, r.2 ++ r'.2)

theorem batcher_step_bound (st : BatcherState) (e : BatcherEvent)
    (hst : st.advertisement_batch.length < FLUSH_BATCH_SIZE) :
    (batcher_step st e).1.advertisement_batch.length < FLUSH_BATCH_SIZE ∧
    ∀ b ∈ (batcher_step st e).2, 1 ≤ b.length ∧ b.length ≤ FLUSH_BATCH_SIZE := by
  cases e with
  | add adv now =>
    simp only [batcher_step, add_advertisement]
    split
    · rw [flush_batch, if_neg (by simp)]
      refine ⟨by simpa [FLUSH_BATCH_SIZE] using Nat.zero_lt_succ 15, ?_⟩
      intro b hb
      simp only [List.mem_singleton] at hb
      subst hb
      simp only [List.length_append, List.length_singleton]
      constructor
      · omega
      · exact hst
    · rename_i hsf
      simp only [should_flush] at hsf
      constructor
      · by_contra hge
        simp only [List.length_append, List.length_singleton] at hge
        have : FLUSH_BATCH_SIZE ≤ st.advertisement_batch.length + 1 := by omega
        simp [this] at hsf
      · intro b hb
        simp at hb
  | timeout now =>
    simp only [batcher_step, on_flush_timeout]
    split
    · rename_i hne
      rw [flush_batch, if_neg hne]
      refine ⟨by simpa [FLUSH_BATCH_SIZE] using Nat.zero_lt_succ 15, ?_⟩
      intro b hb
      simp only [List.mem_singleton] at hb
      subst hb
      have : st.advertisement_batch ≠ [] := hne
      constructor
      · exact Nat.one_le_iff_ne_zero.mpr (by simpa using this)
      · omega
    · exact ⟨hst, by intro b hb; simp at hb⟩
  | force now =>
    simp only [batcher_step, force_flush]
    split
    · rename_i hne
      rw [flush_batch, if_neg hne]
      refine ⟨by simpa [FLUSH_BATCH_SIZE] using Nat.zero_lt_succ 15, ?_⟩
      intro b hb
      simp only [List.mem_singleton] at hb
      subst hb
      constructor
      · exact Nat.one_le_iff_ne_zero.mpr (by simpa using hne)
      · omega
    · exact ⟨hst, by intro b hb; simp at hb⟩
  | clear =>
    simp only [batcher_step, clear_batch]
    exact ⟨by simpa [FLUSH_BATCH_SIZE] using Nat.zero_lt_succ 15, by intro b hb; simp at hb⟩

theorem batcher_run_bound (events : List BatcherEvent) :
    ∀ st : BatcherState, st.advertisement_batch.length < FLUSH_BATCH_SIZE →
    (batcher_run st events).1.advertisement_batch.length < FLUSH_BATCH_SIZE ∧
    ∀ b ∈ (batcher_run st events).2, 1 ≤ b.length ∧ b.length ≤ FLUSH_BATCH_SIZE := by
  induction events with
  | nil =>
    intro st hst
    exact ⟨hst, by intro b hb; simp [batcher_run] at hb⟩
  | cons e es ih =>
    intro st hst
    have hstep := batcher_step_bound st e hst
    have hrest := ih (batcher_step st e).1 hstep.1
    simp only [batcher_run]
    refine ⟨hrest.1, ?_⟩
    intro b hb
    rw [List.mem_append] at hb
    rcases hb with hb | hb
    · exact hstep.2 b hb
    · exact hrest.2 b hb

/-- C5: starting from the freshly initialised batcher, after any sequence
of appends, timer fires, forced flushes and clears, every batch handed to
the send callback has length in `[1, FLUSH_BATCH_SIZE]` (the callback is
never invoked with an empty buffer), and the retained buffer always has
fewer than `FLUSH_BATCH_SIZE` entries — i.e. the append that brings the
buffer to `FLUSH_BATCH_SIZE` always triggers an immediate flush. -/
theorem c5_batch_bound (events : List BatcherEvent) :
    (∀ b ∈ (batcher_run batcher_init events).2,
      1 ≤ b.length ∧ b.length ≤ FLUSH_BATCH_SIZE) ∧
    (batcher_run batcher_init events).1.advertisement_batch.length < FLUSH_BATCH_SIZE := by
  have h := batcher_run_bound events batcher_init
    (by simp [batcher_init, FLUSH_BATCH_SIZE])
  exact ⟨h.2, h.1⟩

/-! ## Section 5: MAC address rendering and parsing
(ble_connection.py / ble_scanner.py)

Characters are modelled by their code points (`':'` is 58). -/

/-- One hex digit of Python's `f"{b:02X}"` (uppercase). -/
def hex_digit (n : Nat) : Nat :=
  if n < 10 then 48 + n else 55 + n

/-- `f"{b:02X}"` for a byte `b < 256`: exactly two uppercase hex digits. -/
def byte_to_hex (b : Nat) : List Nat :=
  [hex_digit (b / 16), hex_digit (b % 16)]

/-- The byte list built by `BLEConnection._address_to_string`:
`(address >> (i * 8)) & 0xFF` for `i = 0..5`, then reversed. -/
def mac_bytes (address : Nat) : List Nat :=
  ((List.range 6).map (fun i => (address >>> (i * 8)) &&& 0xFF)).reverse

/-- Python's `":".join`. -/
def join_colon : List (List Nat) → List Nat
  | [] => []
  | [p] => p
  | p :: ps => p ++ 58 :: join_colon ps

/-- `BLEConnection._address_to_string`. -/
def address_to_string (address : Nat) : List Nat :=
  join_colon ((mac_bytes address).map byte_to_hex)

/-- Modelled from the builtin `int(part, 16)`: value of one hex digit
character (`0-9`, `A-F`, `a-f`; other inputs would raise). -/
def hex_char_val (c : Nat) : Nat :=
  if 48 ≤ c ∧ c ≤ 57 then c - 48
  else if 65 ≤ c ∧ c ≤ 70 then c - 55
  else if 97 ≤ c ∧ c ≤ 102 then c - 87
  else 0

/-- Modelled from the builtin `int(part, 16)` on a hex-digit string. -/
def parse_hex_token (p : List Nat) : Nat :=
  p.foldl (fun acc c => acc * 16 + hex_char_val c) 0

/-- Python's `str.split(":")`. -/
def split_on_colon : List Nat → List (List Nat)
  | [] => [[]]
  | c :: cs =>
    if c = 58 then [] :: split_on_colon cs
    else
      match split_on_colon cs with
      | p :: ps => (c :: p) :: ps
      | [] => [[c]]

/-- The address fold of `BLEScanner._on_advertisement`:
`address = (address << 8) + int(part, 16)` over `device.address.split(":")`. -/
def scanner_parse_address (s : List Nat) : Nat :=
  (split_on_colon s).foldl (fun acc part => (acc <<< 8) + parse_hex_token part) 0

theorem split_cons_colon (cs : List Nat) :
    split_on_colon (58 :: cs) = [] :: split_on_colon cs := by
  conv_lhs => unfold split_on_colon
  rw [if_pos rfl]

theorem split_cons_other (c : Nat) (cs : List Nat) (h : ¬ c = 58) :
    split_on_colon (c :: cs) =
      match split_on_colon cs with
      | p :: ps => (c :: p) :: ps
      | [] => [[c]] := by
  conv_lhs => unfold split_on_colon
  rw [if_neg h]

theorem split_on_colon_no_colon (p : List Nat) (hp : 58 ∉ p) :
    split_on_colon p = [p] := by
  induction p with
  | nil => rfl
  | cons c cs ih =>
    simp only [List.mem_cons, not_or] at hp
    rw [split_cons_other c cs (fun hh => hp.1 hh.symm), ih hp.2]

theorem split_on_colon_chunk (p t : List Nat) (hp : 58 ∉ p) :
    split_on_colon (p ++ 58 :: t) = p :: split_on_colon t := by
  induction p with
  | nil =>
    simp only [List.nil_append]
    exact split_cons_colon t
  | cons c cs ih =>
    simp only [List.mem_cons, not_or] at hp
    simp only [List.cons_append]
    rw [split_cons_other c _ (fun hh => hp.1 hh.symm), ih hp.2]

theorem split_join_colon (parts : List (List Nat))
    (hne : parts ≠ []) (hfree : ∀ p ∈ parts, 58 ∉ p) :
    split_on_colon (join_colon parts) = parts := by
  induction parts with
  | nil => exact absurd rfl hne
  | cons p ps ih =>
    cases ps with
    | nil =>
      simp only [join_colon]
      exact split_on_colon_no_colon p (hfree p (by simp))
    | cons q qs =>
      have hj : join_colon (p :: q :: qs) = p ++ 58 :: join_colon (q :: qs) := rfl
      rw [hj, split_on_colon_chunk p _ (hfree p (by simp))]
      rw [ih (by simp) (fun r hr => hfree r (by simp [hr]))]

theorem foldl_congr_mem {α β : Type} (l : List α) (f g : β → α → β) :
    ∀ i : β, (∀ x ∈ l, ∀ acc, f acc x = g acc x) → l.foldl f i = l.foldl g i := by
  induction l with
  | nil => intro i _; rfl
  | cons x xs ih =>
    intro i h
    simp only [List.foldl_cons]
    rw [h x (by simp) i]
    exact ih _ (fun y hy acc => h y (by simp [hy]) acc)

theorem mac_fold_reconstruct :
    ∀ (k a acc : Nat),
    List.foldl (fun acc b => (acc <<< 8) + b) acc
        (((List.range k).map (fun i => (a >>> (i * 8)) &&& 0xFF)).reverse) =
      acc * 2 ^ (8 * k) + a % 2 ^ (8 * k) := by
  intro k
  induction k with
  | zero => intro a acc; simp [Nat.mod_one]
  | succ k ih =>
    intro a acc
    rw [List.range_succ, List.map_append, List.reverse_append]
    simp only [List.map_cons, List.map_nil, List.reverse_cons, List.reverse_nil,
      List.nil_append, List.singleton_append, List.foldl_cons]
    rw [ih a ((acc <<< 8) + ((a >>> (k * 8)) &&& 0xFF))]
    have hd : (a >>> (k * 8)) &&& 0xFF = a / 2 ^ (8 * k) % 256 := by
      rw [Nat.shiftRight_eq_div_pow]
      have h255 : (0xFF : Nat) = 2 ^ 8 - 1 := by norm_num
      rw [h255, Nat.and_pow_two_sub_one_eq_mod]
      norm_num [Nat.mul_comm]
    have hm := @Nat.mod_mul (2 ^ (8 * k)) 256 a
    have hpow : 2 ^ (8 * (k + 1)) = 2 ^ (8 * k) * 256 := by
      have : 8 * (k + 1) = 8 * k + 8 := by ring
      rw [this, pow_add]
      norm_num
    rw [hd, Nat.shiftLeft_eq, hpow, hm]
    ring

theorem byte_to_hex_facts : ∀ b : Nat, b < 256 →
    parse_hex_token (byte_to_hex b) = b ∧ (byte_to_hex b).length = 2 ∧
    ∀ c ∈ byte_to_hex b, (48 ≤ c ∧ c ≤ 57) ∨ (65 ≤ c ∧ c ≤ 70) := by decide

theorem mac_bytes_lt (a : Nat) : ∀ x ∈ mac_bytes a, x < 256 := by
  intro x hx
  simp only [mac_bytes, List.mem_reverse, List.mem_map, List.mem_range] at hx
  obtain ⟨i, _, rfl⟩ := hx
  have : (a >>> (i * 8)) &&& 0xFF ≤ 0xFF := Nat.and_le_right
  omega

/-- C10: MAC address round-trip: for every 48-bit address `a`,
`BLEConnection._address_to_string a` is the colon-join of six two-digit
uppercase-hex byte renderings (big-endian), and folding that string back
the way `BLEScanner._on_advertisement` does — split on `':'`, then
`address = (address << 8) + int(part, 16)` — yields `a` again. -/
theorem c10_mac_roundtrip (a : Nat) (h : a < 2 ^ 48) :
    scanner_parse_address (address_to_string a) = a ∧
    (mac_bytes a).length = 6 ∧
    (∀ p ∈ (mac_bytes a).map byte_to_hex, p.length = 2 ∧
      ∀ c ∈ p, (48 ≤ c ∧ c ≤ 57) ∨ (65 ≤ c ∧ c ≤ 70)) ∧
    address_to_string a = join_colon ((mac_bytes a).map byte_to_hex) := by
  have hformat : ∀ p ∈ (mac_bytes a).map byte_to_hex, p.length = 2 ∧
      ∀ c ∈ p, (48 ≤ c ∧ c ≤ 57) ∨ (65 ≤ c ∧ c ≤ 70) := by
    intro p hp
    simp only [List.mem_map] at hp
    obtain ⟨b, hb, rfl⟩ := hp
    exact ⟨(byte_to_hex_facts b (mac_bytes_lt a b hb)).2.1,
      (byte_to_hex_facts b (mac_bytes_lt a b hb)).2.2⟩
  refine ⟨?_, by simp [mac_bytes], hformat, rfl⟩
  unfold scanner_parse_address address_to_string
  rw [split_join_colon ((mac_bytes a).map byte_to_hex)
    (by simp [mac_bytes])
    (by
      intro p hp
      intro hc
      rcases (hformat p hp).2 58 hc with h58 | h58 <;> omega)]
  rw [List.foldl_map]
  rw [foldl_congr_mem _ _ (fun acc b => (acc <<< 8) + b) 0
    (by
      intro x hx acc
      rw [(byte_to_hex_facts x (mac_bytes_lt a x hx)).1])]
  unfold mac_bytes
  rw [mac_fold_reconstruct 6 a 0]
  simp only [Nat.zero_mul, Nat.zero_add]
  have : (8 : Nat) * 6 = 48 := by norm_num
  rw [this]
  exact Nat.mod_eq_of_lt h

/-- Witness for C10 at the concrete address `0x123456789ABC`. -/
theorem c10_mac_roundtrip_witness :
    scanner_parse_address (address_to_string 20015998343868) = 20015998343868 ∧
    (mac_bytes 20015998343868).length = 6 ∧
    (∀ p ∈ (mac_bytes 20015998343868).map byte_to_hex, p.length = 2 ∧
      ∀ c ∈ p, (48 ≤ c ∧ c ≤ 57) ∨ (65 ≤ c ∧ c ≤ 70)) ∧
    address_to_string 20015998343868 =
      join_colon ((mac_bytes 20015998343868).map byte_to_hex) :=
  c10_mac_roundtrip 20015998343868 (by decide)

/-! ## Section 6: connection slot pool (bluetooth_proxy.py)

A pool slot is the part of a `BLEConnection` that
`BluetoothProxy.{_initialize_connection_pool, connect_device,
disconnect_device, on_device_connected}` read or write: its `address`,
`address_type` and connected flag.  `connections` is the coordinator's
address → slot dict, with slots named by their pool index.  The BLE
layer's asynchronous updates of a slot's connected flag are modelled by
the `ble_state` event. -/

structure Slot where
  address : Nat
  address_type : Nat
  connected : Bool
deriving DecidableEq

structure ProxyState where
  connection_pool : List Slot
  connections : List (Nat × Nat)
deriving DecidableEq

/-- `BluetoothProxy._initialize_connection_pool`: `max_connections`
placeholder slots `BLEConnection(0, 0, self)`, empty dict. -/
def initialize_connection_pool (max_connections : Nat) : ProxyState :=
  { connection_pool := List.replicate max_connections ⟨0, 0, false⟩,
    connections := [] }

def slot_at (l : List Slot) (i : Nat) : Slot :=
  l.getD i ⟨0, 0, false⟩

/-- `BluetoothProxy.connect_device`: reject a duplicate address, pick the
first free slot (`not is_connected() and address == 0`), assign the
address, insert into the dict (the spawned `connection.connect()` task
touches none of the modelled state). -/
def connect_device (st : ProxyState) (address address_type : Nat) :
    ProxyState × Bool :=
  if st.connections.any (fun p => p.1 == address) then (st, false)
  else
    match st.connection_pool.findIdx? (fun s => !s.connected && s.address == 0) with
    | none => (st, false)
    | some i =>
      ({ connection_pool := st.connection_pool.set i
          ({ address := address, address_type := address_type,
             connected := (slot_at st.connection_pool i).connected }),
         connections := (address, i) :: st.connections }, true)

/-- `BluetoothProxy.disconnect_device`: looks the address up and spawns
`connection.disconnect()`; neither the pool nor the dict changes. -/
def disconnect_device (st : ProxyState) (address : Nat) : ProxyState × Bool :=
  if st.connections.any (fun p => p.1 == address) then (st, true) else (st, false)

/-- `BluetoothProxy.on_device_connected`: on `connected = False`, remove
the address from the dict and reset the slot's address fields to zero;
otherwise only logging happens. -/
def on_device_connected (st : ProxyState) (address : Nat) (connected : Bool) :
    ProxyState :=
  if connected then st
  else
    match st.connections.find? (fun p => p.1 == address) with
    | none => st
    | some pr =>
      { connection_pool := st.connection_pool.set pr.2
          ({ address := 0, address_type := 0,
             connected := (slot_at st.connection_pool pr.2).connected }),
        connections := st.connections.eraseP (fun p => p.1 == address) }

/-- BLE-layer update of a slot's connected flag (set by
`BLEConnection.connect` / `disconnect`, outside the coordinator). -/
def set_slot_connected (st : ProxyState) (i : Nat) (b : Bool) : ProxyState :=
  let s := slot_at st.connection_pool i
  { st with connection_pool :=
      st.connection_pool.set i { s with connected := b } }

inductive ProxyEvent where
  | connect (address address_type : Nat)
  | disconnect (address : Nat)
  | device_connected (address : Nat) (connected : Bool)
  | ble_state (i : Nat) (b : Bool)
deriving DecidableEq

def proxy_step (st : ProxyState) : ProxyEvent → ProxyState
  | .connect a t => (connect_device st a t).1
  | .disconnect a => (disconnect_device st a).1
  | .device_connected a c => on_device_connected st a c
  | .ble_state i b => set_slot_connected st i b

def proxy_run (st : ProxyState) (events : List ProxyEvent) : ProxyState :=
  events.foldl proxy_step st

/-- Number of pool slots whose address field is non-zero. -/
def nonzero_address_slots (st : ProxyState) : Nat :=
  (st.connection_pool.filter (fun s => s.address != 0)).length

theorem slot_at_set_self :
    ∀ (l : List Slot) (i : Nat) (v : Slot), i < l.length →
      slot_at (l.set i v) i = v := by
  intro l
  induction l with
  | nil => intro i v h; simp at h
  | cons x xs ih =>
    intro i v h
    cases i with
    | zero => rfl
    | succ j =>
      simp only [List.set_cons_succ, slot_at, List.getD_cons_succ]
      exact ih j v (by simp at h; omega)

theorem slot_at_set_ne :
    ∀ (l : List Slot) (i j : Nat) (v : Slot), i ≠ j →
      slot_at (l.set i v) j = slot_at l j := by
  intro l
  induction l with
  | nil => intro i j v _; rfl
  | cons x xs ih =>
    intro i j v hne
    cases i with
    | zero =>
      cases j with
      | zero => exact absurd rfl hne
      | succ k => rfl
    | succ i' =>
      cases j with
      | zero => rfl
      | succ k =>
        simp only [List.set_cons_succ, slot_at, List.getD_cons_succ]
        exact ih i' k v (by omega)

theorem countP_set_slot (p : Slot → Bool) :
    ∀ (l : List Slot) (i : Nat) (v : Slot), i < l.length →
      (l.set i v).countP p + (if p (slot_at l i) then 1 else 0) =
        l.countP p + (if p v then 1 else 0) := by
  intro l
  induction l with
  | nil => intro i v h; simp at h
  | cons x xs ih =>
    intro i v h
    cases i with
    | zero =>
      simp only [List.set_cons_zero, List.countP_cons, slot_at, List.getD_cons_zero]
      omega
    | succ j =>
      simp only [List.set_cons_succ, List.countP_cons, slot_at, List.getD_cons_succ]
      have := ih j v (by simp at h; omega)
      simp only [slot_at] at this
      omega

theorem findIdx?_spec {α : Type} (p : α → Bool) (d : α) :
    ∀ (l : List α) (start i : Nat), l.findIdx? p start = some i →
      start ≤ i ∧ i - start < l.length ∧ p (l.getD (i - start) d) = true := by
  intro l
  induction l with
  | nil => intro start i h; simp at h
  | cons x xs ih =>
    intro start i h
    rw [List.findIdx?_cons] at h
    split at h
    · rename_i hx
      injection h with h
      subst h
      refine ⟨Nat.le_refl _, by simp, ?_⟩
      simp only [Nat.sub_self, List.getD_cons_zero]
      exact hx
    · have := ih (start + 1) i h
      obtain ⟨hle, hlt, hp⟩ := this
      refine ⟨by omega, by simp; omega, ?_⟩
      have heq : i - start = (i - (start + 1)) + 1 := by omega
      rw [heq, List.getD_cons_succ]
      exact hp

theorem findIdx?_spec0 {α : Type} (p : α → Bool) (d : α) (l : List α) (i : Nat)
    (h : l.findIdx? p = some i) : i < l.length ∧ p (l.getD i d) = true := by
  have := findIdx?_spec p d l 0 i h
  simpa using this.2

/-- Inductive invariant tying the slot pool to the coordinator's
address → slot dict: every dict entry points at a pool slot carrying its
(nonzero) address, every slot with a nonzero address is registered under
it, addresses are unique, and the running count matches. -/
def PoolInv (st : ProxyState) : Prop :=
  (∀ p ∈ st.connections, p.2 < st.connection_pool.length ∧
    (slot_at st.connection_pool p.2).address = p.1 ∧ p.1 ≠ 0) ∧
  (∀ i : Nat, i < st.connection_pool.length →
    (slot_at st.connection_pool i).address ≠ 0 →
    ((slot_at st.connection_pool i).address, i) ∈ st.connections) ∧
  (st.connections.map Prod.fst).Nodup ∧
  st.connection_pool.countP (fun s => s.address != 0) = st.connections.length

theorem mem_eraseP_key (a : Nat) :
    ∀ (l : List (Nat × Nat)), (l.map Prod.fst).Nodup →
      ∀ x ∈ l.eraseP (fun p => p.1 == a), x ∈ l ∧ x.1 ≠ a := by
  intro l
  induction l with
  | nil => intro _ x hx; simp at hx
  | cons y ys ih =>
    intro hnd x hx
    rw [List.eraseP_cons] at hx
    rw [List.map_cons, List.nodup_cons] at hnd
    by_cases hy : (y.1 == a) = true
    · simp only [hy, cond_true] at hx
      refine ⟨List.mem_cons_of_mem _ hx, ?_⟩
      intro hxa
      exact hnd.1 (by
        rw [List.mem_map]
        exact ⟨x, hx, by rw [hxa, ← eq_of_beq hy]⟩)
    · simp only [hy, cond_false, List.mem_cons] at hx
      rcases hx with rfl | hx
      · exact ⟨List.mem_cons_self _ _, by simpa using hy⟩
      · have := ih hnd.2 x hx
        exact ⟨List.mem_cons_of_mem _ this.1, this.2⟩

theorem pool_inv_connect (st : ProxyState) (a t : Nat) (ha : a ≠ 0)
    (h : PoolInv st) :
    PoolInv (connect_device st a t).1 ∧
    (connect_device st a t).1.connection_pool.length = st.connection_pool.length := by
  obtain ⟨h1, h2, h3, h4⟩ := h
  unfold connect_device
  by_cases hdup : st.connections.any (fun p => p.1 == a) = true
  · rw [if_pos hdup]
    exact ⟨⟨h1, h2, h3, h4⟩, rfl⟩
  · rw [if_neg hdup]
    have hnotin : ∀ p ∈ st.connections, p.1 ≠ a := by
      intro p hp hpa
      exact hdup (List.any_eq_true.mpr ⟨p, hp, by simp [hpa]⟩)
    split
    · exact ⟨⟨h1, h2, h3, h4⟩, rfl⟩
    · rename_i i hfind
      obtain ⟨hi, hp⟩ := findIdx?_spec0 _ ⟨0, 0, false⟩ _ i hfind
      simp only [Bool.and_eq_true, beq_iff_eq] at hp
      have haddr0 : (slot_at st.connection_pool i).address = 0 := by
        have := hp.2
        simpa [slot_at] using this
      refine ⟨⟨?_, ?_, ?_, ?_⟩, by simp⟩
      · intro p hpmem
        rcases List.mem_cons.mp hpmem with rfl | hpmem
        · refine ⟨by simpa using hi, ?_, ha⟩
          rw [slot_at_set_self _ _ _ hi]
        · obtain ⟨hl, haddr, hne0⟩ := h1 p hpmem
          have hpi : p.2 ≠ i := by
            intro he
            rw [he, haddr0] at haddr
            exact hne0 haddr.symm
          refine ⟨by simpa using hl, ?_, hne0⟩
          rw [slot_at_set_ne _ _ _ _ (fun he => hpi he.symm)]
          exact haddr
      · intro j hj hnz
        by_cases hji : j = i
        · subst hji
          rw [slot_at_set_self _ _ _ hi]
          exact List.mem_cons_self _ _
        · rw [slot_at_set_ne _ _ _ _ (fun he => hji he.symm)] at hnz ⊢
          exact List.mem_cons_of_mem _ (h2 j (by simpa using hj) hnz)
      · simp only [List.map_cons]
        rw [List.nodup_cons]
        refine ⟨?_, h3⟩
        intro hmem
        rw [List.mem_map] at hmem
        obtain ⟨p, hpmem, hpa⟩ := hmem
        exact hnotin p hpmem hpa
      · have hc := countP_set_slot (fun s => s.address != 0)
          st.connection_pool i ⟨a, t, (slot_at st.connection_pool i).connected⟩ hi
        have hff : ((slot_at st.connection_pool i).address != 0) = false := by
          simp [haddr0]
        have htt : ((⟨a, t, (slot_at st.connection_pool i).connected⟩ : Slot).address != 0)
            = true := by simp [ha]
        simp only at hc
        have htrue : (a != 0) = true := by simp [ha]
        simp only [haddr0, htrue, bne_self_eq_false, Bool.false_eq_true, if_false,
          if_true, Nat.add_zero] at hc
        dsimp only
        simp only [List.length_cons]
        omega

theorem pool_inv_disconnect (st : ProxyState) (a : Nat) (h : PoolInv st) :
    PoolInv (disconnect_device st a).1 ∧
    (disconnect_device st a).1.connection_pool.length = st.connection_pool.length := by
  unfold disconnect_device
  split <;> exact ⟨h, rfl⟩

theorem pool_inv_device_connected (st : ProxyState) (a : Nat) (c : Bool)
    (h : PoolInv st) :
    PoolInv (on_device_connected st a c) ∧
    (on_device_connected st a c).connection_pool.length = st.connection_pool.length := by
  obtain ⟨h1, h2, h3, h4⟩ := h
  unfold on_device_connected
  split
  · exact ⟨⟨h1, h2, h3, h4⟩, rfl⟩
  · split
    · exact ⟨⟨h1, h2, h3, h4⟩, rfl⟩
    · rename_i pr hfound
      have hpr_mem := List.mem_of_find?_eq_some hfound
      have hpr_key : pr.1 = a := by
        have := List.find?_some hfound
        simpa using this
      obtain ⟨hi, haddr, hne0⟩ := h1 pr hpr_mem
      refine ⟨⟨?_, ?_, ?_, ?_⟩, by simp⟩
      · intro q hq
        obtain ⟨hqmem, hqa⟩ := mem_eraseP_key a st.connections h3 q hq
        obtain ⟨hl, hqaddr, hqne0⟩ := h1 q hqmem
        have hqi : q.2 ≠ pr.2 := by
          intro he
          rw [he, haddr] at hqaddr
          exact hqa (hqaddr.symm.trans hpr_key)
        refine ⟨by simpa using hl, ?_, hqne0⟩
        rw [slot_at_set_ne _ _ _ _ (fun he => hqi he.symm)]
        exact hqaddr
      · intro j hj hnz
        have hji : j ≠ pr.2 := by
          intro he
          rw [he, slot_at_set_self _ _ _ hi] at hnz
          exact hnz rfl
        rw [slot_at_set_ne _ _ _ _ (fun he => hji he.symm)] at hnz ⊢
        have hmem := h2 j (by simpa using hj) hnz
        have hja : (slot_at st.connection_pool j).address ≠ a := by
          intro he
          have := List.inj_on_of_nodup_map h3 hmem hpr_mem (by simp [he, hpr_key])
          exact hji (congrArg Prod.snd this)
        rw [List.mem_eraseP_of_neg (by simp [hja])]
        exact hmem
      · exact List.Nodup.sublist ((List.eraseP_sublist _).map Prod.fst) h3
      · have hc := countP_set_slot (fun s => s.address != 0) st.connection_pool
          pr.2 ⟨0, 0, (slot_at st.connection_pool pr.2).connected⟩ hi
        have ht : ((slot_at st.connection_pool pr.2).address != 0) = true := by
          rw [haddr]
          simpa using hne0
        simp only at hc
        simp only [ht, bne_self_eq_false, Bool.false_eq_true, if_false, if_true,
          Nat.add_zero] at hc
        have hlen_erase : (st.connections.eraseP (fun p => p.1 == a)).length =
            st.connections.length - 1 :=
          List.length_eraseP_of_mem hpr_mem (by simp [hpr_key])
        have hpos : 0 < st.connections.length := List.length_pos_of_mem hpr_mem
        dsimp only
        omega

theorem pool_inv_ble_state (st : ProxyState) (i : Nat) (b : Bool)
    (h : PoolInv st) :
    PoolInv (set_slot_connected st i b) ∧
    (set_slot_connected st i b).connection_pool.length = st.connection_pool.length := by
  obtain ⟨h1, h2, h3, h4⟩ := h
  unfold set_slot_connected
  by_cases hi : i < st.connection_pool.length
  · have haddr_pres : ∀ j : Nat,
        (slot_at (st.connection_pool.set i
          { slot_at st.connection_pool i with connected := b }) j).address =
        (slot_at st.connection_pool j).address := by
      intro j
      by_cases hji : j = i
      · subst hji
        rw [slot_at_set_self _ _ _ hi]
      · rw [slot_at_set_ne _ _ _ _ (fun he => hji he.symm)]
    refine ⟨⟨?_, ?_, h3, ?_⟩, by simp⟩
    · intro p hp
      obtain ⟨hl, haddr, hne0⟩ := h1 p hp
      exact ⟨by simpa using hl, by rw [haddr_pres]; exact haddr, hne0⟩
    · intro j hj hnz
      rw [haddr_pres] at hnz ⊢
      exact h2 j (by simpa using hj) hnz
    · have hc := countP_set_slot (fun s => s.address != 0) st.connection_pool i
        { slot_at st.connection_pool i with connected := b } hi
      simp only at hc
      dsimp only
      omega
  · dsimp only
    rw [List.set_eq_of_length_le (by omega)]
    exact ⟨⟨h1, h2, h3, h4⟩, rfl⟩

theorem pool_inv_step (st : ProxyState) (e : ProxyEvent)
    (hok : ∀ a t, e = ProxyEvent.connect a t → a ≠ 0) (h : PoolInv st) :
    PoolInv (proxy_step st e) ∧
    (proxy_step st e).connection_pool.length = st.connection_pool.length := by
  cases e with
  | connect a t => exact pool_inv_connect st a t (hok a t rfl) h
  | disconnect a => exact pool_inv_disconnect st a h
  | device_connected a c => exact pool_inv_device_connected st a c h
  | ble_state i b => exact pool_inv_ble_state st i b h

theorem pool_inv_run (events : List ProxyEvent) :
    ∀ st : ProxyState,
    (∀ e ∈ events, ∀ a t, e = ProxyEvent.connect a t → a ≠ 0) → PoolInv st →
    PoolInv (proxy_run st events) ∧
    (proxy_run st events).connection_pool.length = st.connection_pool.length := by
  induction events with
  | nil => intro st _ h; exact ⟨h, rfl⟩
  | cons e es ih =>
    intro st hok h
    have hstep := pool_inv_step st e (hok e (by simp)) h
    have hrest := ih (proxy_step st e)
      (fun e' he' a t => hok e' (by simp [he']) a t) hstep.1
    simp only [proxy_run, List.foldl_cons]
    exact ⟨hrest.1, by
      have := hrest.2
      simp only [proxy_run] at this
      rw [this, hstep.2]⟩

theorem pool_inv_init (n : Nat) : PoolInv (initialize_connection_pool n) := by
  refine ⟨by simp [initialize_connection_pool], ?_, by simp [initialize_connection_pool], ?_⟩
  · intro i hi hnz
    simp only [initialize_connection_pool, slot_at] at hnz
    rw [List.getD_eq_getElem?_getD] at hnz
    simp only [initialize_connection_pool, List.length_replicate] at hi
    rw [List.getElem?_replicate] at hnz
    simp [hi] at hnz
  · simp only [initialize_connection_pool]
    rw [List.countP_eq_length_filter]
    have : ∀ n : Nat, (List.replicate n (⟨0, 0, false⟩ : Slot)).filter
        (fun s => s.address != 0) = [] := by
      intro n
      induction n with
      | zero => rfl
      | succ k ihk => simpa [List.replicate_succ, List.filter_cons] using ihk
    rw [this]
    rfl

/-- C4 counterexample: from the initialised pool, the single call
`connect_device(address=0, address_type=0)` succeeds (address 0 is not in
the map and every slot is free), inserts address 0 into the coordinator
map, but leaves every slot's address field equal to 0 — so the number of
slots with non-zero address (0) differs from the size of the map (1),
refuting the claim for this operation sequence. -/
theorem c4_counterexample :
    nonzero_address_slots
        (proxy_run (initialize_connection_pool 3) [ProxyEvent.connect 0 0]) = 0 ∧
    (proxy_run (initialize_connection_pool 3)
        [ProxyEvent.connect 0 0]).connections.length = 1 := by
  constructor <;> rfl

/-- C4 amended: after any sequence of `connect_device`,
`disconnect_device`, `on_device_connected` (and BLE-layer connected-flag
updates) starting from the initialised pool, **provided every
`connect_device` call passes a non-zero address**, the number of pool
slots with a non-zero address equals the number of entries in the
coordinator's address → connection map, and that number never exceeds
`max_connections`. -/
theorem c4_slot_invariant (events : List ProxyEvent) (max_connections : Nat)
    (hok : ∀ e ∈ events, ∀ a t, e = ProxyEvent.connect a t → a ≠ 0) :
    nonzero_address_slots
        (proxy_run (initialize_connection_pool max_connections) events) =
      (proxy_run (initialize_connection_pool max_connections) events).connections.length ∧
    (proxy_run (initialize_connection_pool max_connections) events).connections.length ≤
      max_connections := by
  obtain ⟨hinv, hlen⟩ :=
    pool_inv_run events (initialize_connection_pool max_connections) hok
      (pool_inv_init max_connections)
  obtain ⟨h1, h2, h3, h4⟩ := hinv
  constructor
  · rw [nonzero_address_slots, ← List.countP_eq_length_filter]
    exact h4
  · rw [← h4]
    have hcount := List.countP_le_length
      (fun s : Slot => s.address != 0)
      (l := (proxy_run (initialize_connection_pool max_connections) events).connection_pool)
    rw [hlen] at hcount
    simpa [initialize_connection_pool] using hcount

/-- Witness for C4 (amended) on a concrete run with `max_connections = 2`:
two connects and one disconnect callback. -/
theorem c4_slot_invariant_witness :
    nonzero_address_slots
        (proxy_run (initialize_connection_pool 2)
          [ProxyEvent.connect 5 0, ProxyEvent.connect 7 1,
            ProxyEvent.device_connected 5 false]) =
      (proxy_run (initialize_connection_pool 2)
          [ProxyEvent.connect 5 0, ProxyEvent.connect 7 1,
            ProxyEvent.device_connected 5 false]).connections.length ∧
    (proxy_run (initialize_connection_pool 2)
          [ProxyEvent.connect 5 0, ProxyEvent.connect 7 1,
            ProxyEvent.device_connected 5 false]).connections.length ≤ 2 :=
  c4_slot_invariant
    [ProxyEvent.connect 5 0, ProxyEvent.connect 7 1,
      ProxyEvent.device_connected 5 false] 2
    (by
      intro e he a t heq
      subst heq
      simp only [List.mem_cons, List.not_mem_nil, or_false] at he
      rcases he with he | he | he <;> simp_all)

/-! ## Section 7: API connection state machine (connection.py)

`APIConnection._handle_message` dispatches on the integer message type;
the `elif` chain is mirrored by `RequestKind` (the integer codes for
`SubscribeStatesRequest` and the descriptor requests are absent from
`protocol.py`, which only matters for naming the branch).  Calls into
`self.bluetooth_proxy` / `self.gatt_handler` and messages written to this
client are recorded as effects; backend outcomes and the presence of the
proxy / GATT handler attributes are oracle inputs (`ConnEnv`). -/

inductive ConnectionState where
  | connecting
  | connected
  | authenticated
deriving DecidableEq

structure APIConnection where
  state : ConnectionState
  client_info : List Nat
  client_api_version_major : Nat
  client_api_version_minor : Nat
  subscribed_to_states : Bool
  password : Option (List Nat)
deriving DecidableEq

inductive RequestKind where
  | hello
  | connect
  | disconnect
  | deviceInfo
  | listEntities
  | ping
  | bluetoothDevice
  | gattGetServices
  | gattRead
  | gattWrite
  | gattNotify
  | gattReadDescriptor
  | gattWriteDescriptor
  | subscribeStates
deriving DecidableEq

inductive CoordinatorCall where
  | connectDevice (address address_type : Nat)
  | disconnectDevice (address : Nat)
  | discoverServices (address : Nat)
  | gattRead (address handle : Nat)
  | gattWrite (address handle : Nat) (data : List Nat) (response : Bool)
  | gattNotify (address handle : Nat) (enable : Bool)
  | gattReadDescriptor (address handle : Nat)
  | gattWriteDescriptor (address handle : Nat) (data : List Nat)
deriving DecidableEq

inductive SentMsg where
  | helloResponse
  | connectResponse (invalid_password : Bool)
  | disconnectResponse
  | pingResponse
  | deviceInfoResponse
  | deviceConnectionError (address : Nat)
  | getServicesResponse (address : Nat) (empty : Bool)
  | scannerState
deriving DecidableEq

/-- Oracle inputs of one dispatch: attribute presence and backend
outcomes. -/
structure ConnEnv where
  has_bluetooth_proxy : Bool
  has_gatt_handler : Bool
  proxy_connect_ok : Bool
  proxy_disconnect_ok : Bool
  device_connected : Bool
  discovery_ok : Bool
deriving DecidableEq

structure HandlerResult where
  conn : APIConnection
  sent : List SentMsg
  calls : List CoordinatorCall
  closed : Bool
deriving DecidableEq

def noEffect (c : APIConnection) : HandlerResult :=
  { conn := c, sent := [], calls := [], closed := false }

/-- `protocol.BluetoothDeviceRequest` (decoder defaults 0, 0, 0). -/
structure BluetoothDeviceRequest where
  address : Nat
  address_type : Nat
  action : Nat
deriving DecidableEq

def bluetooth_device_request_table : Nat → Nat → FieldSpec BluetoothDeviceRequest :=
  fun fieldNum wire =>
    if fieldNum == 1 && wire == 0 then
      .setVarint (fun v m => { m with address := v })
    else if fieldNum == 2 && wire == 0 then
      .setVarint (fun v m => { m with address_type := v })
    else if fieldNum == 3 && wire == 0 then
      .setVarint (fun v m => { m with action := v })
    else .skip

/-- `MessageDecoder.decode_bluetooth_device_request`. -/
def decode_bluetooth_device_request (data : List Nat) : Option BluetoothDeviceRequest :=
  decode_fields bluetooth_device_request_table ⟨0, 0, 0⟩ data

/-- `protocol.ConnectRequest`. -/
structure ConnectRequest where
  password : List Nat
deriving DecidableEq

def connect_request_table : Nat → Nat → FieldSpec ConnectRequest := fun fieldNum wire =>
  if fieldNum == 1 && wire == 2 then .setString (fun s _ => ⟨s⟩)
  else .skip

/-- `MessageDecoder.decode_connect_request`. -/
def decode_connect_request (data : List Nat) : Option ConnectRequest :=
  decode_fields connect_request_table ⟨[]⟩ data

/-- `protocol.BluetoothGATTGetServicesRequest`. -/
structure BluetoothGATTGetServicesRequest where
  address : Nat
deriving DecidableEq

def gatt_get_services_table : Nat → Nat → FieldSpec BluetoothGATTGetServicesRequest :=
  fun fieldNum wire =>
    if fieldNum == 1 && wire == 0 then .setVarint (fun v _ => ⟨v⟩)
    else .skip

/-- `MessageDecoder.decode_bluetooth_gatt_get_services_request`. -/
def decode_bluetooth_gatt_get_services_request (data : List Nat) :
    Option BluetoothGATTGetServicesRequest :=
  decode_fields gatt_get_services_table ⟨0⟩ data

/-- `protocol.BluetoothGATTReadRequest`. -/
structure BluetoothGATTReadRequest where
  address : Nat
  handle : Nat
deriving DecidableEq

def gatt_read_request_table : Nat → Nat → FieldSpec BluetoothGATTReadRequest :=
  fun fieldNum wire =>
    if fieldNum == 1 && wire == 0 then .setVarint (fun v m => { m with address := v })
    else if fieldNum == 2 && wire == 0 then .setVarint (fun v m => { m with handle := v })
    else .skip

/-- `MessageDecoder.decode_bluetooth_gatt_read_request`. -/
def decode_bluetooth_gatt_read_request (data : List Nat) :
    Option BluetoothGATTReadRequest :=
  decode_fields gatt_read_request_table ⟨0, 0⟩ data

/-- `protocol.BluetoothGATTWriteRequest` (decoder defaults
`(0, 0, True, b"")`). -/
structure BluetoothGATTWriteRequest where
  address : Nat
  handle : Nat
  response : Bool
  data : List Nat
deriving DecidableEq

def gatt_write_request_table : Nat → Nat → FieldSpec BluetoothGATTWriteRequest :=
  fun fieldNum wire =>
    if fieldNum == 1 && wire == 0 then .setVarint (fun v m => { m with address := v })
    else if fieldNum == 2 && wire == 0 then .setVarint (fun v m => { m with handle := v })
    else if fieldNum == 3 && wire == 0 then .setVarint (fun v m => { m with response := v != 0 })
    else if fieldNum == 4 && wire == 2 then .setBytes (fun s m => { m with data := s })
    else .skip

/-- `MessageDecoder.decode_bluetooth_gatt_write_request`. -/
def decode_bluetooth_gatt_write_request (data : List Nat) :
    Option BluetoothGATTWriteRequest :=
  decode_fields gatt_write_request_table ⟨0, 0, true, []⟩ data

/-- `protocol.BluetoothGATTNotifyRequest` (decoder defaults
`(0, 0, False)`). -/
structure BluetoothGATTNotifyRequest where
  address : Nat
  handle : Nat
  enable : Bool
deriving DecidableEq

def gatt_notify_request_table : Nat → Nat → FieldSpec BluetoothGATTNotifyRequest :=
  fun fieldNum wire =>
    if fieldNum == 1 && wire == 0 then .setVarint (fun v m => { m with address := v })
    else if fieldNum == 2 && wire == 0 then .setVarint (fun v m => { m with handle := v })
    else if fieldNum == 3 && wire == 0 then .setVarint (fun v m => { m with enable := v != 0 })
    else .skip

/-- `MessageDecoder.decode_bluetooth_gatt_notify_request`. -/
def decode_bluetooth_gatt_notify_request (data : List Nat) :
    Option BluetoothGATTNotifyRequest :=
  decode_fields gatt_notify_request_table ⟨0, 0, false⟩ data

theorem decode_fields_varint_last {α : Type} (upd : Nat → Nat → FieldSpec α)
    (b v : Nat) (msg : α) {f : Nat → α → α}
    (hb : b < 128) (hupd : upd (b >>> 3) (b &&& 7) = .setVarint f) (hv : v < 2 ^ 70) :
    decode_fields upd msg (b :: encode_varint v) = some (f v msg) := by
  rw [← List.append_nil (encode_varint v),
    decode_fields_varint_chunk upd b v msg [] hb hupd hv, decode_fields_nil]

theorem decode_fields_string_last {α : Type} (upd : Nat → Nat → FieldSpec α)
    (b : Nat) (s : List Nat) (msg : α) {f : List Nat → α → α}
    (hb : b < 128) (hupd : upd (b >>> 3) (b &&& 7) = .setString f)
    (hs : s.length < 2 ^ 70) :
    decode_fields upd msg (b :: encode_string s) = some (f s msg) := by
  rw [← List.append_nil (encode_string s),
    decode_fields_string_chunk upd b s msg [] hb hupd hs, decode_fields_nil]

/-- `APIConnection._handle_hello_request`: ignored (with a warning) in any
state other than `CONNECTING`; otherwise record the client identity, send
the `HelloResponse` and enter `CONNECTED`.  A decode failure is caught and
has no effect. -/
def handle_hello_request (c : APIConnection) (payload : List Nat) : HandlerResult :=
  if c.state ≠ ConnectionState.connecting then noEffect c
  else
    match decode_hello_request payload with
    | none => noEffect c
    | some req =>
      { conn := { c with
          client_info := req.client_info,
          client_api_version_major := req.api_version_major,
          client_api_version_minor := req.api_version_minor,
          state := ConnectionState.connected },
        sent := [SentMsg.helloResponse], calls := [], closed := false }

/-- `APIConnection._handle_connect_request`. -/
def handle_connect_request (c : APIConnection) (payload : List Nat) : HandlerResult :=
  if c.state = ConnectionState.authenticated then noEffect c
  else if c.state ≠ ConnectionState.connected then noEffect c
  else
    match decode_connect_request payload with
    | none => noEffect c
    | some req =>
      let password_valid : Bool :=
        match c.password with
        | none => true
        | some pw => req.password == pw
      if password_valid then
        { conn := { c with state := ConnectionState.authenticated },
          sent := [SentMsg.connectResponse false], calls := [], closed := false }
      else
        { conn := c, sent := [SentMsg.connectResponse true], calls := [], closed := true }

/-- `APIConnection._handle_disconnect_request`: acknowledge and close, in
any state. -/
def handle_disconnect_request (c : APIConnection) : HandlerResult :=
  { conn := c, sent := [SentMsg.disconnectResponse], calls := [], closed := true }

/-- `APIConnection._handle_device_info_request`: allowed in `CONNECTED`
with no password configured, otherwise requires `AUTHENTICATED`. -/
def handle_device_info_request (c : APIConnection) : HandlerResult :=
  if c.state = ConnectionState.connected ∧ c.password = none then
    { conn := c, sent := [SentMsg.deviceInfoResponse], calls := [], closed := false }
  else if c.state ≠ ConnectionState.authenticated then noEffect c
  else { conn := c, sent := [SentMsg.deviceInfoResponse], calls := [], closed := false }

/-- `APIConnection._handle_ping_request`: no state check. -/
def handle_ping_request (c : APIConnection) : HandlerResult :=
  { conn := c, sent := [SentMsg.pingResponse], calls := [], closed := false }

/-- `APIConnection._handle_subscribe_states_request`: requires
`AUTHENTICATED`; then marks the subscription and pushes the scanner
state (its empty payload always decodes). -/
def handle_subscribe_states_request (c : APIConnection) : HandlerResult :=
  if c.state ≠ ConnectionState.authenticated then noEffect c
  else
    { conn := { c with subscribed_to_states := true },
      sent := [SentMsg.scannerState], calls := [], closed := false }

/-- `APIConnection._handle_bluetooth_device_request`: no state check; the
request is forwarded to `bluetooth_proxy.connect_device` /
`disconnect_device` whenever the proxy reference exists, and a
`BluetoothDeviceConnectionResponse` with `error=1` is pushed when the
call reports failure (or the action is unknown). -/
def handle_bluetooth_device_request (env : ConnEnv) (c : APIConnection)
    (payload : List Nat) : HandlerResult :=
  match decode_bluetooth_device_request payload with
  | none => noEffect c
  | some req =>
    if env.has_bluetooth_proxy then
      if req.action == 0 then
        { conn := c, calls := [CoordinatorCall.connectDevice req.address req.address_type],
          sent := if env.proxy_connect_ok then []
            else [SentMsg.deviceConnectionError req.address],
          closed := false }
      else if req.action == 1 then
        { conn := c, calls := [CoordinatorCall.disconnectDevice req.address],
          sent := if env.proxy_disconnect_ok then []
            else [SentMsg.deviceConnectionError req.address],
          closed := false }
      else
        { conn := c, calls := [],
          sent := [SentMsg.deviceConnectionError req.address], closed := false }
    else noEffect c

/-- `APIConnection._handle_bluetooth_gatt_get_services_request`: no state
check; service discovery runs when the proxy exists and the device is
connected, answering with a (possibly empty) services response. -/
def handle_gatt_get_services_request (env : ConnEnv) (c : APIConnection)
    (payload : List Nat) : HandlerResult :=
  match decode_bluetooth_gatt_get_services_request payload with
  | none => noEffect c
  | some req =>
    if env.has_bluetooth_proxy then
      if env.device_connected then
        { conn := c, calls := [CoordinatorCall.discoverServices req.address],
          sent := [SentMsg.getServicesResponse req.address (!env.discovery_ok)],
          closed := false }
      else noEffect c
    else noEffect c

/-- `APIConnection._handle_bluetooth_gatt_read_request`: no state check;
forwarded to the GATT handler when present. -/
def handle_gatt_read_request (env : ConnEnv) (c : APIConnection)
    (payload : List Nat) : HandlerResult :=
  match decode_bluetooth_gatt_read_request payload with
  | none => noEffect c
  | some req =>
    if env.has_gatt_handler then
      { conn := c, calls := [CoordinatorCall.gattRead req.address req.handle],
        sent := [], closed := false }
    else noEffect c

/-- `APIConnection._handle_bluetooth_gatt_write_request`: no state check;
forwarded to the GATT handler when present. -/
def handle_gatt_write_request (env : ConnEnv) (c : APIConnection)
    (payload : List Nat) : HandlerResult :=
  match decode_bluetooth_gatt_write_request payload with
  | none => noEffect c
  | some req =>
    if env.has_gatt_handler then
      { conn := c,
        calls := [CoordinatorCall.gattWrite req.address req.handle req.data req.response],
        sent := [], closed := false }
    else noEffect c

/-- `APIConnection._handle_bluetooth_gatt_notify_request`: no state check;
forwarded to the GATT handler when present. -/
def handle_gatt_notify_request (env : ConnEnv) (c : APIConnection)
    (payload : List Nat) : HandlerResult :=
  match decode_bluetooth_gatt_notify_request payload with
  | none => noEffect c
  | some req =>
    if env.has_gatt_handler then
      { conn := c, calls := [CoordinatorCall.gattNotify req.address req.handle req.enable],
        sent := [], closed := false }
    else noEffect c

/-- `APIConnection._handle_bluetooth_gatt_read_descriptor_request`: no
state check; forwarded when the GATT handler is present.  Its decoder is
referenced but missing from `protocol.py`; modelled from the spec with
the same `(address, handle)` field layout as the characteristic read. -/
def handle_gatt_read_descriptor_request (env : ConnEnv) (c : APIConnection)
    (payload : List Nat) : HandlerResult :=
  match decode_bluetooth_gatt_read_request payload with
  | none => noEffect c
  | some req =>
    if env.has_gatt_handler then
      { conn := c, calls := [CoordinatorCall.gattReadDescriptor req.address req.handle],
        sent := [], closed := false }
    else noEffect c

/-- `APIConnection._handle_bluetooth_gatt_write_descriptor_request`: no
state check; forwarded when the GATT handler is present.  Decoder missing
from `protocol.py`; modelled from the spec like the characteristic
write (address, handle, data). -/
def handle_gatt_write_descriptor_request (env : ConnEnv) (c : APIConnection)
    (payload : List Nat) : HandlerResult :=
  match decode_bluetooth_gatt_write_request payload with
  | none => noEffect c
  | some req =>
    if env.has_gatt_handler then
      { conn := c,
        calls := [CoordinatorCall.gattWriteDescriptor req.address req.handle req.data],
        sent := [], closed := false }
    else noEffect c

/-- `APIConnection._handle_message`: the dispatch table.  The
`LIST_ENTITIES_REQUEST` branch calls `_handle_list_entities_request`,
which is not defined on the class; the resulting `AttributeError` is
caught by `_handle_message`'s `except`, so the request has no effect. -/
def handle_message (env : ConnEnv) (c : APIConnection) :
    RequestKind → List Nat → HandlerResult
  | .hello, payload => handle_hello_request c payload
  | .connect, payload => handle_connect_request c payload
  | .disconnect, _ => handle_disconnect_request c
  | .deviceInfo, _ => handle_device_info_request c
  | .listEntities, _ => noEffect c
  | .ping, _ => handle_ping_request c
  | .bluetoothDevice, payload => handle_bluetooth_device_request env c payload
  | .gattGetServices, payload => handle_gatt_get_services_request env c payload
  | .gattRead, payload => handle_gatt_read_request env c payload
  | .gattWrite, payload => handle_gatt_write_request env c payload
  | .gattNotify, payload => handle_gatt_notify_request env c payload
  | .gattReadDescriptor, payload => handle_gatt_read_descriptor_request env c payload
  | .gattWriteDescriptor, payload => handle_gatt_write_descriptor_request env c payload
  | .subscribeStates, _ => handle_subscribe_states_request c

/-- C2 counterexample: a client whose connection is in state `CONNECTED`
(not `Authenticated`) sends `BluetoothDeviceRequest(address=1,
address_type=0, action=Connect)`; the dispatcher forwards it to
`bluetooth_proxy.connect_device` — the request is acted on without
authentication, refuting the claimed gate. -/
theorem c2_counterexample :
    (handle_message ⟨true, true, true, true, true, true⟩
        ⟨ConnectionState.connected, [], 1, 10, false, none⟩
        RequestKind.bluetoothDevice [8, 1, 16, 0, 24, 0]).calls =
      [CoordinatorCall.connectDevice 1 0] ∧
    (⟨ConnectionState.connected, [], 1, 10, false, none⟩ : APIConnection).state ≠
      ConnectionState.authenticated := by
  have hshape : ([8, 1, 16, 0, 24, 0] : List Nat) =
      8 :: (encode_varint 1 ++ (16 :: (encode_varint 0 ++ (24 :: encode_varint 0)))) := by
    simp [encode_varint]
  have hdec : decode_bluetooth_device_request [8, 1, 16, 0, 24, 0] =
      some ⟨1, 0, 0⟩ := by
    rw [decode_bluetooth_device_request, hshape,
      decode_fields_varint_chunk _ 8 1 _ _ (by norm_num) rfl (by norm_num),
      decode_fields_varint_chunk _ 16 0 _ _ (by norm_num) rfl (by norm_num),
      decode_fields_varint_last _ 24 0 _ (by norm_num) rfl (by norm_num)]
  constructor
  · show (handle_bluetooth_device_request _ _ _).calls = _
    rw [handle_bluetooth_device_request, hdec]
    rfl
  · decide

/-- C2 amended: the dispatcher has no authentication gate for the
Bluetooth requests: for `BluetoothDeviceRequest`, GATT get-services,
read, write, notify and the descriptor requests, a connection in state
`Connecting` or `Connected` produces exactly the same coordinator/GATT
calls and responses as one in any other state (the handlers never read
`self.state`); only `SubscribeStatesRequest` is gated on
`Authenticated`, producing no effect otherwise. -/
theorem c2_no_auth_gate (env : ConnEnv) (c : APIConnection) (s : ConnectionState)
    (k : RequestKind) (payload : List Nat)
    (hk : k = RequestKind.bluetoothDevice ∨ k = RequestKind.gattGetServices ∨
      k = RequestKind.gattRead ∨ k = RequestKind.gattWrite ∨
      k = RequestKind.gattNotify ∨ k = RequestKind.gattReadDescriptor ∨
      k = RequestKind.gattWriteDescriptor)
    (hs : c.state ≠ ConnectionState.authenticated) :
    (handle_message env c k payload =
      { handle_message env { c with state := s } k payload with conn := c }) ∧
    handle_message env c RequestKind.subscribeStates payload = noEffect c := by
  constructor
  · rcases hk with rfl | rfl | rfl | rfl | rfl | rfl | rfl
    · show handle_bluetooth_device_request env c payload =
        { handle_bluetooth_device_request env { c with state := s } payload with conn := c }
      rw [handle_bluetooth_device_request, handle_bluetooth_device_request]
      cases decode_bluetooth_device_request payload with
      | none => rfl
      | some req =>
        simp only [noEffect]
        split <;> [skip; rfl]
        split <;> [rfl; skip]
        split <;> rfl
    · show handle_gatt_get_services_request env c payload =
        { handle_gatt_get_services_request env { c with state := s } payload with conn := c }
      rw [handle_gatt_get_services_request, handle_gatt_get_services_request]
      cases decode_bluetooth_gatt_get_services_request payload with
      | none => rfl
      | some req =>
        simp only [noEffect]
        split <;> [skip; rfl]
        split <;> rfl
    · show handle_gatt_read_request env c payload =
        { handle_gatt_read_request env { c with state := s } payload with conn := c }
      rw [handle_gatt_read_request, handle_gatt_read_request]
      cases decode_bluetooth_gatt_read_request payload with
      | none => rfl
      | some req => simp only [noEffect]; split <;> rfl
    · show handle_gatt_write_request env c payload =
        { handle_gatt_write_request env { c with state := s } payload with conn := c }
      rw [handle_gatt_write_request, handle_gatt_write_request]
      cases decode_bluetooth_gatt_write_request payload with
      | none => rfl
      | some req => simp only [noEffect]; split <;> rfl
    · show handle_gatt_notify_request env c payload =
        { handle_gatt_notify_request env { c with state := s } payload with conn := c }
      rw [handle_gatt_notify_request, handle_gatt_notify_request]
      cases decode_bluetooth_gatt_notify_request payload with
      | none => rfl
      | some req => simp only [noEffect]; split <;> rfl
    · show handle_gatt_read_descriptor_request env c payload =
        { handle_gatt_read_descriptor_request env { c with state := s } payload with conn := c }
      rw [handle_gatt_read_descriptor_request, handle_gatt_read_descriptor_request]
      cases decode_bluetooth_gatt_read_request payload with
      | none => rfl
      | some req => simp only [noEffect]; split <;> rfl
    · show handle_gatt_write_descriptor_request env c payload =
        { handle_gatt_write_descriptor_request env { c with state := s } payload with conn := c }
      rw [handle_gatt_write_descriptor_request, handle_gatt_write_descriptor_request]
      cases decode_bluetooth_gatt_write_request payload with
      | none => rfl
      | some req => simp only [noEffect]; split <;> rfl
  · show handle_subscribe_states_request c = noEffect c
    rw [handle_subscribe_states_request, if_pos hs]

/-- Witness for C2 (amended) at a concrete connected-but-unauthenticated
client and a GATT read request. -/
theorem c2_no_auth_gate_witness :
    (handle_message ⟨true, true, true, true, true, true⟩
        ⟨ConnectionState.connected, [], 1, 10, false, none⟩
        RequestKind.gattRead [] =
      { handle_message ⟨true, true, true, true, true, true⟩
          ⟨ConnectionState.authenticated, [], 1, 10, false, none⟩
          RequestKind.gattRead [] with
        conn := ⟨ConnectionState.connected, [], 1, 10, false, none⟩ }) ∧
    handle_message ⟨true, true, true, true, true, true⟩
        ⟨ConnectionState.connected, [], 1, 10, false, none⟩
        RequestKind.subscribeStates [] =
      noEffect ⟨ConnectionState.connected, [], 1, 10, false, none⟩ :=
  c2_no_auth_gate ⟨true, true, true, true, true, true⟩
    ⟨ConnectionState.connected, [], 1, 10, false, none⟩
    ConnectionState.authenticated RequestKind.gattRead [] (by decide) (by decide)

/-- C3 counterexample: a `HelloRequest` arriving on a connection in state
`CONNECTED` is simply ignored — the handler logs a warning and returns:
nothing is sent, the state does not change, and the connection is NOT
closed, refuting the claimed close. -/
theorem c3_counterexample :
    (handle_message ⟨true, true, true, true, true, true⟩
        ⟨ConnectionState.connected, [], 1, 10, false, none⟩
        RequestKind.hello []).closed = false ∧
    (handle_message ⟨true, true, true, true, true, true⟩
        ⟨ConnectionState.connected, [], 1, 10, false, none⟩
        RequestKind.hello []).conn.state = ConnectionState.connected ∧
    (handle_message ⟨true, true, true, true, true, true⟩
        ⟨ConnectionState.connected, [], 1, 10, false, none⟩
        RequestKind.hello []).sent = [] := by
  refine ⟨rfl, rfl, rfl⟩

/-- C3 amended: a `HelloRequest` received in any state other than
`Connecting` is ignored with a warning: no response is sent, no
coordinator call is made, the state is unchanged and the connection
stays open. -/
theorem c3_hello_ignored (env : ConnEnv) (c : APIConnection) (payload : List Nat)
    (h : c.state ≠ ConnectionState.connecting) :
    handle_message env c RequestKind.hello payload = noEffect c := by
  show handle_hello_request c payload = noEffect c
  rw [handle_hello_request, if_pos h]

/-- Witness for C3 (amended) on an authenticated connection. -/
theorem c3_hello_ignored_witness :
    handle_message ⟨true, true, true, true, true, true⟩
        ⟨ConnectionState.authenticated, [], 1, 10, false, none⟩
        RequestKind.hello [] =
      noEffect ⟨ConnectionState.authenticated, [], 1, 10, false, none⟩ :=
  c3_hello_ignored ⟨true, true, true, true, true, true⟩
    ⟨ConnectionState.authenticated, [], 1, 10, false, none⟩ [] (by decide)

/-! ## Section 8: GATT operation handler (gatt_operations.py)

Backend call outcomes are `Option Bool`: `some b` is the returned
boolean, `none` a raised exception (caught by the handler's `except`).
`_send_gatt_write_response` broadcasts a `BluetoothGATTWriteResponse`
(message type 33, `error=0`); `_send_gatt_error` broadcasts a
`BluetoothGATTReadResponse` (message type 31) with empty data and
`error=1`. -/

inductive GattMsg where
  | writeResponse (address handle error : Nat)
  | readResponse (address handle : Nat) (data : List Nat) (error : Nat)
deriving DecidableEq

/-- The `MessageType` the handler sends each response with. -/
def gatt_msg_type : GattMsg → Nat
  | .writeResponse _ _ _ => 33
  | .readResponse _ _ _ _ => 31

structure GattEnv where
  connected : Bool
  write_outcome : Option Bool
  notify_outcome : Option Bool
deriving DecidableEq

/-- `address → {handle → enabled}` as a flat association list keyed by
`(address, handle)` (`GATTOperationHandler.notification_subscriptions`). -/
abbrev SubsMap : Type := List ((Nat × Nat) × Bool)

/-- `self.notification_subscriptions[address][handle] = enable`. -/
def set_subscription (m : SubsMap) (address handle : Nat) (enable : Bool) : SubsMap :=
  if m.any (fun e => e.1 == (address, handle)) then
    m.map (fun e => if e.1 == (address, handle) then ((address, handle), enable) else e)
  else m ++ [((address, handle), enable)]

/-- `GATTOperationHandler.handle_gatt_write_request`. -/
def gatt_op_write_request (env : GattEnv) (address handle : Nat)
    (data : List Nat) (response : Bool) : List GattMsg :=
  if ¬ env.connected then [.readResponse address handle [] 1]
  else
    match env.write_outcome with
    | some true => if response then [.writeResponse address handle 0] else []
    | some false => if response then [.readResponse address handle [] 1] else []
    | none => if response then [.readResponse address handle [] 1] else []

/-- `GATTOperationHandler.handle_gatt_write_descriptor_request` (same
success/failure response shape as the characteristic write). -/
def gatt_op_write_descriptor_request (env : GattEnv) (address handle : Nat)
    (data : List Nat) (response : Bool) : List GattMsg :=
  if ¬ env.connected then [.readResponse address handle [] 1]
  else
    match env.write_outcome with
    | some true => if response then [.writeResponse address handle 0] else []
    | some false => if response then [.readResponse address handle [] 1] else []
    | none => if response then [.readResponse address handle [] 1] else []

/-- `GATTOperationHandler.handle_gatt_notify_request`: the subscription
entry is written before the backend `start_notify`/`stop_notify` call,
and is left in place on every failure path. -/
def gatt_op_notify_request (env : GattEnv) (subs : SubsMap)
    (address handle : Nat) (enable : Bool) : SubsMap × List GattMsg :=
  if ¬ env.connected then (subs, [.readResponse address handle [] 1])
  else
    let subs' := set_subscription subs address handle enable
    match env.notify_outcome with
    | some true => (subs', [])
    | some false => (subs', [.readResponse address handle [] 1])
    | none => (subs', [.readResponse address handle [] 1])

/-- C7 counterexample: a response-required characteristic write whose
backend call returns failure.  The daemon emits a
`BluetoothGATTReadResponse` (message type 31) with `error=1` — not a
`BluetoothGATTWriteResponse` (type 33) with `error=1` as claimed; no
write-response appears at all. -/
theorem c7_counterexample :
    gatt_op_write_request ⟨true, some false, some true⟩ 1 2 [3] true =
      [GattMsg.readResponse 1 2 [] 1] ∧
    gatt_msg_type (GattMsg.readResponse 1 2 [] 1) = 31 ∧
    GattMsg.writeResponse 1 2 1 ∉
      gatt_op_write_request ⟨true, some false, some true⟩ 1 2 [3] true := by
  refine ⟨rfl, rfl, by decide⟩

/-- C7 amended: for a GATT characteristic or descriptor write with
response required on a connected device: when the backend write succeeds
the daemon emits a `BluetoothGATTWriteResponse` (message type 33) with
`error=0`; when it fails (returns `False` or raises) the daemon emits a
`BluetoothGATTReadResponse` (message type 31) with `error=1` and empty
data for that address and handle. -/
theorem c7_gatt_write_responses (env : GattEnv) (address handle : Nat)
    (data : List Nat) (hc : env.connected = true) :
    (env.write_outcome = some true →
      gatt_op_write_request env address handle data true =
        [GattMsg.writeResponse address handle 0] ∧
      gatt_op_write_descriptor_request env address handle data true =
        [GattMsg.writeResponse address handle 0]) ∧
    (env.write_outcome ≠ some true →
      gatt_op_write_request env address handle data true =
        [GattMsg.readResponse address handle [] 1] ∧
      gatt_op_write_descriptor_request env address handle data true =
        [GattMsg.readResponse address handle [] 1]) ∧
    gatt_msg_type (GattMsg.writeResponse address handle 0) = 33 ∧
    gatt_msg_type (GattMsg.readResponse address handle [] 1) = 31 := by
  refine ⟨?_, ?_, rfl, rfl⟩
  · intro hw
    rw [gatt_op_write_request, gatt_op_write_descriptor_request, hc, hw]
    exact ⟨rfl, rfl⟩
  · intro hw
    rw [gatt_op_write_request, gatt_op_write_descriptor_request, hc]
    match ho : env.write_outcome with
    | some true => exact absurd ho hw
    | some false => exact ⟨rfl, rfl⟩
    | none => exact ⟨rfl, rfl⟩

/-- Witness for C7 (amended): success and failure outcomes at address 1,
handle 2. -/
theorem c7_gatt_write_responses_witness :
    ((some true : Option Bool) = some true →
      gatt_op_write_request ⟨true, some true, some true⟩ 1 2 [3] true =
        [GattMsg.writeResponse 1 2 0] ∧
      gatt_op_write_descriptor_request ⟨true, some true, some true⟩ 1 2 [3] true =
        [GattMsg.writeResponse 1 2 0]) ∧
    ((some true : Option Bool) ≠ some true →
      gatt_op_write_request ⟨true, some true, some true⟩ 1 2 [3] true =
        [GattMsg.readResponse 1 2 [] 1] ∧
      gatt_op_write_descriptor_request ⟨true, some true, some true⟩ 1 2 [3] true =
        [GattMsg.readResponse 1 2 [] 1]) ∧
    gatt_msg_type (GattMsg.writeResponse 1 2 0) = 33 ∧
    gatt_msg_type (GattMsg.readResponse 1 2 [] 1) = 31 :=
  c7_gatt_write_responses ⟨true, some true, some true⟩ 1 2 [3] rfl

theorem find_set_subscription (a h : Nat) (e : Bool) :
    ∀ m : SubsMap,
    (set_subscription m a h e).find? (fun x => x.1 == (a, h)) = some ((a, h), e) := by
  have aux1 : ∀ m : List ((Nat × Nat) × Bool),
      m.any (fun x => x.1 == (a, h)) = true →
      (m.map (fun x => if x.1 == (a, h) then ((a, h), e) else x)).find?
        (fun x => x.1 == (a, h)) = some ((a, h), e) := by
    intro m
    induction m with
    | nil => intro hany; simp at hany
    | cons y ys ih =>
      intro hany
      by_cases hy : (y.1 == (a, h)) = true
      · simp only [List.map_cons, if_pos hy]
        rw [List.find?_cons_of_pos _ (by simp)]
      · simp only [List.map_cons, if_neg hy]
        rw [List.find?_cons_of_neg _ (by simpa using hy)]
        apply ih
        simp only [List.any_cons, hy, Bool.false_or] at hany
        exact hany
  have aux2 : ∀ m : List ((Nat × Nat) × Bool),
      m.any (fun x => x.1 == (a, h)) = false →
      (m ++ [((a, h), e)]).find? (fun x => x.1 == (a, h)) = some ((a, h), e) := by
    intro m
    induction m with
    | nil =>
      intro _
      simp only [List.nil_append]
      rw [List.find?_cons_of_pos _ (by simp)]
    | cons y ys ih =>
      intro hany
      simp only [List.any_cons, Bool.or_eq_false_iff] at hany
      simp only [List.cons_append]
      rw [List.find?_cons_of_neg _ (by simp [hany.1])]
      exact ih hany.2
  intro m
  rw [set_subscription]
  by_cases hany : m.any (fun x => x.1 == (a, h)) = true
  · rw [if_pos hany]
    exact aux1 m hany
  · rw [if_neg hany]
    exact aux2 m (Bool.eq_false_iff.mpr hany)

/-- C8 counterexample: subscriptions start with `(1, 2) → disabled`; an
enable request on a connected device whose backend `start_notify` fails
leaves the entry set to `enabled` — the subscription map is NOT rolled
back to its pre-request value. -/
theorem c8_counterexample :
    (gatt_op_notify_request ⟨true, some true, some false⟩ [((1, 2), false)]
        1 2 true).1 = [((1, 2), true)] ∧
    ([((1, 2), true)] : SubsMap) ≠ [((1, 2), false)] := by
  refine ⟨rfl, by decide⟩

/-- C8 amended: `handle_gatt_notify_request` on a connected device
records the new enabled/disabled value for the `(address, handle)` entry
before invoking the backend, and the entry KEEPS that new value on every
backend outcome — including failure; there is no rollback (an error
response is emitted instead). -/
theorem c8_notify_no_rollback (env : GattEnv) (subs : SubsMap)
    (address handle : Nat) (enable : Bool) (hc : env.connected = true) :
    (gatt_op_notify_request env subs address handle enable).1 =
      set_subscription subs address handle enable ∧
    ((gatt_op_notify_request env subs address handle enable).1.find?
      (fun x => x.1 == (address, handle))) = some ((address, handle), enable) ∧
    (env.notify_outcome ≠ some true →
      (gatt_op_notify_request env subs address handle enable).2 =
        [GattMsg.readResponse address handle [] 1]) := by
  have hstate : (gatt_op_notify_request env subs address handle enable).1 =
      set_subscription subs address handle enable := by
    rw [gatt_op_notify_request, hc]
    match ho : env.notify_outcome with
    | some true => rfl
    | some false => rfl
    | none => rfl
  refine ⟨hstate, ?_, ?_⟩
  · rw [hstate]
    exact find_set_subscription address handle enable subs
  · intro hn
    rw [gatt_op_notify_request, hc]
    match ho : env.notify_outcome with
    | some true => exact absurd ho hn
    | some false => rfl
    | none => rfl

/-- Witness for C8 (amended): enable request with a failing backend on a
previously disabled subscription. -/
theorem c8_notify_no_rollback_witness :
    (gatt_op_notify_request ⟨true, some true, some false⟩ [((1, 2), false)]
        1 2 true).1 = set_subscription [((1, 2), false)] 1 2 true ∧
    ((gatt_op_notify_request ⟨true, some true, some false⟩ [((1, 2), false)]
        1 2 true).1.find? (fun x => x.1 == (1, 2))) = some ((1, 2), true) ∧
    ((some false : Option Bool) ≠ some true →
      (gatt_op_notify_request ⟨true, some true, some false⟩ [((1, 2), false)]
          1 2 true).2 = [GattMsg.readResponse 1 2 [] 1]) :=
  c8_notify_no_rollback ⟨true, some true, some false⟩ [((1, 2), false)] 1 2 true rfl

/-! ## Section 9: encoder field emission order (protocol.py)

`scan_fields` reads the top-level protobuf field keys of an encoded
payload in byte order (skipping each value by its wire type, as the
decoders' unknown-field path does), yielding the sequence of field
numbers in emission order. -/

def scan_fields : List Nat → Option (List Nat)
  | [] => some []
  | b :: tail =>
    match h : decode_varint (b :: tail) with
    | none => none
    | some (key, ks) =>
      if key &&& 7 = 0 then
        match decode_varint ((b :: tail).drop ks) with
        | none => none
        | some (_, c) =>
          Option.map (fun l => key >>> 3 :: l)
            (scan_fields (((b :: tail).drop ks).drop c))
      else if key &&& 7 = 2 then
        match decode_varint ((b :: tail).drop ks) with
        | none => none
        | some (len, c) =>
          if ((((b :: tail).drop ks).drop c)).length < len then none
          else
            Option.map (fun l => key >>> 3 :: l)
              (scan_fields ((((b :: tail).drop ks).drop c).drop len))
      else none
termination_by data => data.length
decreasing_by
  all_goals
    have hks := decode_varint_consumed_pos h
    simp [List.length_drop]
    omega

theorem scan_fields_nil : scan_fields [] = some [] := by
  unfold scan_fields
  rfl

theorem scan_fields_varint_chunk (b v : Nat) (rest : List Nat)
    (hb : b < 128) (hw : b &&& 7 = 0) (hv : v < 2 ^ 70) :
    scan_fields (b :: (encode_varint v ++ rest)) =
      Option.map (fun l => b >>> 3 :: l) (scan_fields rest) := by
  conv_lhs => unfold scan_fields
  split
  · rename_i heq
    rw [decode_varint_single hb] at heq
    simp at heq
  · rename_i key ks heq
    rw [decode_varint_single hb] at heq
    obtain ⟨rfl, rfl⟩ : key = b ∧ ks = 1 := by
      simpa [eq_comm] using heq
    rw [if_pos hw]
    simp only [List.drop_succ_cons, List.drop_zero, decode_varint_encode v rest hv]
    rw [List.drop_left]

theorem scan_fields_string_chunk (b : Nat) (s rest : List Nat)
    (hb : b < 128) (hw : b &&& 7 = 2) (hs : s.length < 2 ^ 70) :
    scan_fields (b :: (encode_string s ++ rest)) =
      Option.map (fun l => b >>> 3 :: l) (scan_fields rest) := by
  conv_lhs => unfold scan_fields
  split
  · rename_i heq
    rw [decode_varint_single hb] at heq
    simp at heq
  · rename_i key ks heq
    rw [decode_varint_single hb] at heq
    obtain ⟨rfl, rfl⟩ : key = b ∧ ks = 1 := by
      simpa [eq_comm] using heq
    rw [if_neg (by omega), if_pos hw]
    simp only [List.drop_succ_cons, List.drop_zero, encode_string, List.append_assoc,
      decode_varint_encode s.length (s ++ rest) hs]
    rw [List.drop_left' rfl]
    rw [if_neg (by simp)]
    rw [List.drop_left' rfl]

theorem encode_varint_146 : encode_varint 146 = [146, 1] := by
  have h1 : (146 : Nat) >>> 7 = 1 := by decide
  have h2 : ((146 : Nat) &&& 127) ||| 128 = 146 := by decide
  rw [encode_varint, if_neg (by decide), h2, h1, encode_varint, if_pos (by decide)]
  decide

theorem scan_fields_field18_chunk (s rest : List Nat) (hs : s.length < 2 ^ 70) :
    scan_fields (146 :: 1 :: (encode_string s ++ rest)) =
      Option.map (fun l => 18 :: l) (scan_fields rest) := by
  have hdec : decode_varint (146 :: 1 :: (encode_string s ++ rest)) = some (146, 2) := by
    have : (146 : Nat) :: 1 :: (encode_string s ++ rest) =
        encode_varint 146 ++ (encode_string s ++ rest) := by
      rw [encode_varint_146]
      rfl
    rw [this, decode_varint_encode 146 _ (by decide), encode_varint_146]
    rfl
  conv_lhs => unfold scan_fields
  split
  · rename_i heq
    rw [hdec] at heq
    simp at heq
  · rename_i key ks heq
    rw [hdec] at heq
    obtain ⟨rfl, rfl⟩ : key = 146 ∧ ks = 2 := by
      simpa [eq_comm] using heq
    rw [if_neg (by decide), if_pos (by decide)]
    have hdrop : ((146 : Nat) :: 1 :: (encode_string s ++ rest)).drop 2 =
        encode_string s ++ rest := rfl
    rw [hdrop]
    simp only [encode_string, List.append_assoc,
      decode_varint_encode s.length (s ++ rest) hs]
    rw [List.drop_left' rfl]
    rw [if_neg (by simp)]
    rw [List.drop_left' rfl]
    have h183 : (146 : Nat) >>> 3 = 18 := by decide
    rw [h183]

/-- One emitted optional field of an encoder: key byte(s) plus encoded
value, as `MessageEncoder` writes them. -/
inductive Chunk where
  | varintF (b v : Nat)
  | boolF (b : Nat) (v : Bool)
  | stringF (b : Nat) (s : List Nat)
  | string18 (s : List Nat)
deriving DecidableEq

def chunk_bytes : Chunk → List Nat
  | .varintF b v => b :: encode_varint v
  | .boolF b v => b :: encode_bool v
  | .stringF b s => b :: encode_string s
  | .string18 s => 146 :: 1 :: encode_string s

def chunk_field : Chunk → Nat
  | .varintF b _ => b >>> 3
  | .boolF b _ => b >>> 3
  | .stringF b _ => b >>> 3
  | .string18 _ => 18

def chunk_ok : Chunk → Prop
  | .varintF b v => b < 128 ∧ b &&& 7 = 0 ∧ v < 2 ^ 70
  | .boolF b _ => b < 128 ∧ b &&& 7 = 0
  | .stringF b s => b < 128 ∧ b &&& 7 = 2 ∧ s.length < 2 ^ 70
  | .string18 s => s.length < 2 ^ 70

theorem encode_bool_eq_varint (v : Bool) :
    encode_bool v = encode_varint (if v then 1 else 0) := by
  cases v <;> simp [encode_bool, encode_varint]

theorem scan_fields_chunk (c : Chunk) (rest : List Nat) (hc : chunk_ok c) :
    scan_fields (chunk_bytes c ++ rest) =
      Option.map (fun l => chunk_field c :: l) (scan_fields rest) := by
  cases c with
  | varintF b v =>
    obtain ⟨h1, h2, h3⟩ := hc
    exact scan_fields_varint_chunk b v rest h1 h2 h3
  | boolF b v =>
    obtain ⟨h1, h2⟩ := hc
    show scan_fields ((b :: encode_bool v) ++ rest) = _
    rw [List.cons_append, encode_bool_eq_varint]
    exact scan_fields_varint_chunk b _ rest h1 h2 (by split <;> norm_num)
  | stringF b s =>
    obtain ⟨h1, h2, h3⟩ := hc
    exact scan_fields_string_chunk b s rest h1 h2 h3
  | string18 s =>
    exact scan_fields_field18_chunk s rest hc

theorem scan_fields_chunks :
    ∀ cs : List Chunk, (∀ c ∈ cs, chunk_ok c) →
    scan_fields (List.join (cs.map chunk_bytes)) = some (cs.map chunk_field) := by
  intro cs
  induction cs with
  | nil => intro _; exact scan_fields_nil
  | cons c cs ih =>
    intro hok
    simp only [List.map_cons, List.join_cons]
    rw [scan_fields_chunk c _ (hok c (by simp)),
      ih (fun d hd => hok d (by simp [hd]))]
    rfl

/-- `protocol.HelloResponse` (defaults `1, 10, "", ""`). -/
structure HelloResponse where
  api_version_major : Nat
  api_version_minor : Nat
  server_info : List Nat
  name : List Nat
deriving DecidableEq

/-- `MessageEncoder.encode_hello_response`, key bytes
`\x08, \x10, \x1a, \x22` in source order. -/
def encode_hello_response (msg : HelloResponse) : List Nat :=
  (if msg.api_version_major ≠ 1 then 0x08 :: encode_varint msg.api_version_major else []) ++
  ((if msg.api_version_minor ≠ 10 then 0x10 :: encode_varint msg.api_version_minor else []) ++
   ((if msg.server_info ≠ [] then 0x1a :: encode_string msg.server_info else []) ++
    (if msg.name ≠ [] then 0x22 :: encode_string msg.name else [])))

/-- The chunk sequence `encode_hello_response` writes, in source order. -/
def hello_response_chunks (msg : HelloResponse) : List Chunk :=
  (if msg.api_version_major ≠ 1 then [Chunk.varintF 0x08 msg.api_version_major] else []) ++
  ((if msg.api_version_minor ≠ 10 then [Chunk.varintF 0x10 msg.api_version_minor] else []) ++
   ((if msg.server_info ≠ [] then [Chunk.stringF 0x1a msg.server_info] else []) ++
    (if msg.name ≠ [] then [Chunk.stringF 0x22 msg.name] else [])))

/-- `protocol.DeviceInfoResponse`; strings are UTF-8 byte lists. -/
structure DeviceInfoResponse where
  uses_password : Bool
  name : List Nat
  mac_address : List Nat
  esphome_version : List Nat
  compilation_time : List Nat
  model : List Nat
  has_deep_sleep : Bool
  project_name : List Nat
  project_version : List Nat
  webserver_port : Nat
  bluetooth_proxy_feature_flags : Nat
  manufacturer : List Nat
  friendly_name : List Nat
  bluetooth_mac_address : List Nat
deriving DecidableEq

/-- `MessageEncoder.encode_device_info_response`, with the source's
emission order: fields 1-10, then field 15
(`bluetooth_proxy_feature_flags`, key `\x78`), then fields 12, 13, 18. -/
def encode_device_info_response (msg : DeviceInfoResponse) : List Nat :=
  (if msg.uses_password then 0x08 :: encode_bool msg.uses_password else []) ++
  ((if msg.name ≠ [] then 0x12 :: encode_string msg.name else []) ++
   ((if msg.mac_address ≠ [] then 0x1a :: encode_string msg.mac_address else []) ++
    ((if msg.esphome_version ≠ [] then 0x22 :: encode_string msg.esphome_version else []) ++
     ((if msg.compilation_time ≠ [] then 0x2a :: encode_string msg.compilation_time else []) ++
      ((if msg.model ≠ [] then 0x32 :: encode_string msg.model else []) ++
       ((if msg.has_deep_sleep then 0x38 :: encode_bool msg.has_deep_sleep else []) ++
        ((if msg.project_name ≠ [] then 0x42 :: encode_string msg.project_name else []) ++
         ((if msg.project_version ≠ [] then 0x4a :: encode_string msg.project_version else []) ++
          ((if msg.webserver_port ≠ 0 then 0x50 :: encode_varint msg.webserver_port else []) ++
           ((if msg.bluetooth_proxy_feature_flags ≠ 0 then
               0x78 :: encode_varint msg.bluetooth_proxy_feature_flags else []) ++
            ((if msg.manufacturer ≠ [] then 0x62 :: encode_string msg.manufacturer else []) ++
             ((if msg.friendly_name ≠ [] then 0x6a :: encode_string msg.friendly_name else []) ++
              (if msg.bluetooth_mac_address ≠ [] then
                0x92 :: 1 :: encode_string msg.bluetooth_mac_address else [])))))))))))))

/-- The chunk sequence `encode_device_info_response` writes, in source
order. -/
def device_info_chunks (msg : DeviceInfoResponse) : List Chunk :=
  (if msg.uses_password then [Chunk.boolF 0x08 msg.uses_password] else []) ++
  ((if msg.name ≠ [] then [Chunk.stringF 0x12 msg.name] else []) ++
   ((if msg.mac_address ≠ [] then [Chunk.stringF 0x1a msg.mac_address] else []) ++
    ((if msg.esphome_version ≠ [] then [Chunk.stringF 0x22 msg.esphome_version] else []) ++
     ((if msg.compilation_time ≠ [] then [Chunk.stringF 0x2a msg.compilation_time] else []) ++
      ((if msg.model ≠ [] then [Chunk.stringF 0x32 msg.model] else []) ++
       ((if msg.has_deep_sleep then [Chunk.boolF 0x38 msg.has_deep_sleep] else []) ++
        ((if msg.project_name ≠ [] then [Chunk.stringF 0x42 msg.project_name] else []) ++
         ((if msg.project_version ≠ [] then [Chunk.stringF 0x4a msg.project_version] else []) ++
          ((if msg.webserver_port ≠ 0 then [Chunk.varintF 0x50 msg.webserver_port] else []) ++
           ((if msg.bluetooth_proxy_feature_flags ≠ 0 then
               [Chunk.varintF 0x78 msg.bluetooth_proxy_feature_flags] else []) ++
            ((if msg.manufacturer ≠ [] then [Chunk.stringF 0x62 msg.manufacturer] else []) ++
             ((if msg.friendly_name ≠ [] then [Chunk.stringF 0x6a msg.friendly_name] else []) ++
              (if msg.bluetooth_mac_address ≠ [] then
                [Chunk.string18 msg.bluetooth_mac_address] else [])))))))))))))

theorem join_map_opt_chunk (cond : Prop) [Decidable cond] (c : Chunk) :
    List.join (List.map chunk_bytes (if cond then [c] else [])) =
      if cond then chunk_bytes c else [] := by
  split <;> simp

theorem encode_hello_response_chunks (msg : HelloResponse) :
    encode_hello_response msg =
      List.join ((hello_response_chunks msg).map chunk_bytes) := by
  rw [encode_hello_response, hello_response_chunks]
  simp only [List.map_append, List.join_append, join_map_opt_chunk, chunk_bytes]

theorem encode_device_info_response_chunks (msg : DeviceInfoResponse) :
    encode_device_info_response msg =
      List.join ((device_info_chunks msg).map chunk_bytes) := by
  rw [encode_device_info_response, device_info_chunks]
  simp only [List.map_append, List.join_append, join_map_opt_chunk, chunk_bytes]

/-- Field numbers emitted by `encode_hello_response`, in emission order. -/
def hello_response_field_order (msg : HelloResponse) : List Nat :=
  (hello_response_chunks msg).map chunk_field

/-- Field numbers emitted by `encode_device_info_response`, in emission
order. -/
def device_info_field_order (msg : DeviceInfoResponse) : List Nat :=
  (device_info_chunks msg).map chunk_field

theorem map_opt_chunk (cond : Prop) [Decidable cond] (c : Chunk) :
    List.map chunk_field (if cond then [c] else []) =
      if cond then [chunk_field c] else [] := by
  split <;> simp

theorem opt_sublist {α : Type} (cond : Prop) [Decidable cond] (x : α) :
    List.Sublist (if cond then [x] else []) [x] := by
  split
  · exact List.Sublist.refl _
  · exact List.nil_sublist _

theorem mem_opt_singleton {α : Type} {x a : α} {cond : Prop} [Decidable cond]
    (h : x ∈ (if cond then [a] else [])) : x = a := by
  split at h
  · simpa using h
  · simp at h

theorem device_info_field_order_sublist (msg : DeviceInfoResponse) :
    List.Sublist (device_info_field_order msg)
      [1, 2, 3, 4, 5, 6, 7, 8, 9, 10, 15, 12, 13, 18] := by
  rw [device_info_field_order, device_info_chunks]
  simp only [List.map_append, map_opt_chunk, chunk_field]
  have target : ([1] ++ ([2] ++ ([3] ++ ([4] ++ ([5] ++ ([6] ++ ([7] ++ ([8] ++
      ([9] ++ ([10] ++ ([15] ++ ([12] ++ ([13] ++ [18]))))))))))))  : List Nat) =
      [1, 2, 3, 4, 5, 6, 7, 8, 9, 10, 15, 12, 13, 18] := rfl
  rw [← target]
  refine List.Sublist.append (opt_sublist _ _) ?_
  refine List.Sublist.append (opt_sublist _ _) ?_
  refine List.Sublist.append (opt_sublist _ _) ?_
  refine List.Sublist.append (opt_sublist _ _) ?_
  refine List.Sublist.append (opt_sublist _ _) ?_
  refine List.Sublist.append (opt_sublist _ _) ?_
  refine List.Sublist.append (opt_sublist _ _) ?_
  refine List.Sublist.append (opt_sublist _ _) ?_
  refine List.Sublist.append (opt_sublist _ _) ?_
  refine List.Sublist.append (opt_sublist _ _) ?_
  refine List.Sublist.append (opt_sublist _ _) ?_
  refine List.Sublist.append (opt_sublist _ _) ?_
  refine List.Sublist.append (opt_sublist _ _) ?_
  exact opt_sublist _ _

theorem hello_response_field_order_sublist (msg : HelloResponse) :
    List.Sublist (hello_response_field_order msg) [1, 2, 3, 4] := by
  rw [hello_response_field_order, hello_response_chunks]
  simp only [List.map_append, map_opt_chunk, chunk_field]
  have target : ([1] ++ ([2] ++ ([3] ++ [4])) : List Nat) = [1, 2, 3, 4] := rfl
  rw [← target]
  refine List.Sublist.append (opt_sublist _ _) ?_
  refine List.Sublist.append (opt_sublist _ _) ?_
  refine List.Sublist.append (opt_sublist _ _) ?_
  exact opt_sublist _ _

theorem device_info_chunks_ok (msg : DeviceInfoResponse)
    (b1 : msg.name.length < 2 ^ 70) (b2 : msg.mac_address.length < 2 ^ 70)
    (b3 : msg.esphome_version.length < 2 ^ 70)
    (b4 : msg.compilation_time.length < 2 ^ 70) (b5 : msg.model.length < 2 ^ 70)
    (b6 : msg.project_name.length < 2 ^ 70) (b7 : msg.project_version.length < 2 ^ 70)
    (b8 : msg.webserver_port < 2 ^ 70)
    (b9 : msg.bluetooth_proxy_feature_flags < 2 ^ 70)
    (b10 : msg.manufacturer.length < 2 ^ 70) (b11 : msg.friendly_name.length < 2 ^ 70)
    (b12 : msg.bluetooth_mac_address.length < 2 ^ 70) :
    ∀ c ∈ device_info_chunks msg, chunk_ok c := by
  intro c hc
  rw [device_info_chunks] at hc
  simp only [List.mem_append] at hc
  rcases hc with hc | hc | hc | hc | hc | hc | hc | hc | hc | hc | hc | hc | hc | hc <;>
    rw [mem_opt_singleton hc]
  · exact ⟨by decide, by decide⟩
  · exact ⟨by decide, by decide, b1⟩
  · exact ⟨by decide, by decide, b2⟩
  · exact ⟨by decide, by decide, b3⟩
  · exact ⟨by decide, by decide, b4⟩
  · exact ⟨by decide, by decide, b5⟩
  · exact ⟨by decide, by decide⟩
  · exact ⟨by decide, by decide, b6⟩
  · exact ⟨by decide, by decide, b7⟩
  · exact ⟨by decide, by decide, b8⟩
  · exact ⟨by decide, by decide, b9⟩
  · exact ⟨by decide, by decide, b10⟩
  · exact ⟨by decide, by decide, b11⟩
  · exact b12

theorem hello_response_chunks_ok (msg : HelloResponse)
    (b1 : msg.api_version_major < 2 ^ 70) (b2 : msg.api_version_minor < 2 ^ 70)
    (b3 : msg.server_info.length < 2 ^ 70) (b4 : msg.name.length < 2 ^ 70) :
    ∀ c ∈ hello_response_chunks msg, chunk_ok c := by
  intro c hc
  rw [hello_response_chunks] at hc
  simp only [List.mem_append] at hc
  rcases hc with hc | hc | hc | hc <;> rw [mem_opt_singleton hc]
  · exact ⟨by decide, by decide, b1⟩
  · exact ⟨by decide, by decide, b2⟩
  · exact ⟨by decide, by decide, b3⟩
  · exact ⟨by decide, by decide, b4⟩

/-- C9 counterexample: a `DeviceInfoResponse` whose only present fields
are `bluetooth_proxy_feature_flags = 97` (field 15) and
`manufacturer = "X"` (field 12).  The encoded payload carries field 15
before field 12 — the emitted field numbers `[15, 12]` are not in
ascending order, refuting the claim for `encode_device_info_response`. -/
theorem c9_counterexample :
    scan_fields (encode_device_info_response
        ⟨false, [], [], [], [], [], false, [], [], 0, 97, [88], [], []⟩) =
      some [15, 12] ∧
    ¬ List.Pairwise (· < ·) [15, 12] := by
  constructor
  · rw [encode_device_info_response_chunks,
      scan_fields_chunks _ (device_info_chunks_ok _ (by decide) (by decide)
        (by decide) (by decide) (by decide) (by decide) (by decide)
        (by decide) (by decide) (by decide) (by decide) (by decide))]
    rfl
  · decide

/-- C9 amended: `encode_hello_response` emits its present fields in
strictly ascending field-number order; `encode_device_info_response`
emits its present fields in the fixed order 1, 2, 3, 4, 5, 6, 7, 8, 9,
10, 15, 12, 13, 18 — ascending except that field 15
(`bluetooth_proxy_feature_flags`) is emitted immediately after field 10
and before fields 12, 13 and 18. -/
theorem c9_field_order (m : DeviceInfoResponse) (h : HelloResponse)
    (b1 : m.name.length < 2 ^ 70) (b2 : m.mac_address.length < 2 ^ 70)
    (b3 : m.esphome_version.length < 2 ^ 70)
    (b4 : m.compilation_time.length < 2 ^ 70) (b5 : m.model.length < 2 ^ 70)
    (b6 : m.project_name.length < 2 ^ 70) (b7 : m.project_version.length < 2 ^ 70)
    (b8 : m.webserver_port < 2 ^ 70) (b9 : m.bluetooth_proxy_feature_flags < 2 ^ 70)
    (b10 : m.manufacturer.length < 2 ^ 70) (b11 : m.friendly_name.length < 2 ^ 70)
    (b12 : m.bluetooth_mac_address.length < 2 ^ 70)
    (c1 : h.api_version_major < 2 ^ 70) (c2 : h.api_version_minor < 2 ^ 70)
    (c3 : h.server_info.length < 2 ^ 70) (c4 : h.name.length < 2 ^ 70) :
    scan_fields (encode_device_info_response m) = some (device_info_field_order m) ∧
    List.Sublist (device_info_field_order m)
      [1, 2, 3, 4, 5, 6, 7, 8, 9, 10, 15, 12, 13, 18] ∧
    scan_fields (encode_hello_response h) = some (hello_response_field_order h) ∧
    List.Pairwise (· < ·) (hello_response_field_order h) := by
  refine ⟨?_, device_info_field_order_sublist m, ?_, ?_⟩
  · rw [encode_device_info_response_chunks,
      scan_fields_chunks _ (device_info_chunks_ok m b1 b2 b3 b4 b5 b6 b7 b8 b9
        b10 b11 b12)]
    rfl
  · rw [encode_hello_response_chunks,
      scan_fields_chunks _ (hello_response_chunks_ok h c1 c2 c3 c4)]
    rfl
  · exact List.Pairwise.sublist (hello_response_field_order_sublist h) (by decide)

/-- Witness for C9 (amended) at a concrete `DeviceInfoResponse` (name
"ab", flags 97, manufacturer "X") and `HelloResponse` (server_info "s"). -/
theorem c9_field_order_witness :
    scan_fields (encode_device_info_response
        ⟨false, [97, 98], [], [], [], [], false, [], [], 0, 97, [88], [], []⟩) =
      some (device_info_field_order
        ⟨false, [97, 98], [], [], [], [], false, [], [], 0, 97, [88], [], []⟩) ∧
    List.Sublist (device_info_field_order
        ⟨false, [97, 98], [], [], [], [], false, [], [], 0, 97, [88], [], []⟩)
      [1, 2, 3, 4, 5, 6, 7, 8, 9, 10, 15, 12, 13, 18] ∧
    scan_fields (encode_hello_response ⟨1, 10, [115], []⟩) =
      some (hello_response_field_order ⟨1, 10, [115], []⟩) ∧
    List.Pairwise (· < ·) (hello_response_field_order ⟨1, 10, [115], []⟩) :=
  c9_field_order ⟨false, [97, 98], [], [], [], [], false, [], [], 0, 97, [88], [], []⟩
    ⟨1, 10, [115], []⟩ (by decide) (by decide) (by decide) (by decide) (by decide)
    (by decide) (by decide) (by decide) (by decide) (by decide) (by decide)
    (by decide) (by decide) (by decide) (by decide) (by decide)
